import Mathlib

/-!
Verification of `soccer_schedule_scraper.py` (schedule normalization and
calendar-generation pipeline).

The Python source is shallowly embedded: machine-level concerns are modelled
with `Nat`/`Int` arithmetic, Python exceptions with `Except PyErr`, and the
external network fetch with an oracle function passed as a parameter.  Civil
dates and times are carried on linear scales (minutes or seconds on the
proleptic Gregorian calendar, anchored at ordinal day 1 = 0001-01-01, as in
Python's `datetime.toordinal`).
-/

namespace SoccerScraper

/-- Decidable equality for `Except`, used to evaluate the embedded
functions on concrete inputs. -/
instance {ε α : Type} [DecidableEq ε] [DecidableEq α] : DecidableEq (Except ε α) :=
  fun a b =>
    match a, b with
    | .ok x, .ok y =>
      if h : x = y then .isTrue (by rw [h]) else .isFalse (by simp [h])
    | .error x, .error y =>
      if h : x = y then .isTrue (by rw [h]) else .isFalse (by simp [h])
    | .ok _, .error _ => .isFalse (by simp)
    | .error _, .ok _ => .isFalse (by simp)

/-- Python exception values relevant to the embedded code: the exception
class together with its message, as raised by the source. -/
inductive PyErr where
  | valueError (msg : String)
  | runtimeError (msg : String)
  | typeError (msg : String)
  | keyError (msg : String)
  deriving DecidableEq, Repr

/-- Python class name of an exception, as read by `e.__class__.__name__`
in the handler. -/
def PyErr.className : PyErr → String
  | .valueError _ => "ValueError"
  | .runtimeError _ => "RuntimeError"
  | .typeError _ => "TypeError"
  | .keyError _ => "KeyError"

/-- Message of an exception, as read by `str(e)`. -/
def PyErr.msg : PyErr → String
  | .valueError m => m
  | .runtimeError m => m
  | .typeError m => m
  | .keyError m => m

/-- ASCII whitespace characters stripped by Python's `str.strip()`
(the inputs we model are ASCII, where these are exactly the characters
Python strips). -/
def pySpaceChar (c : Char) : Bool :=
  c = ' ' || c = '\t' || c = '\n' || c = '\x0b' || c = '\x0c' || c = '\r'

/-- List-level strip: remove leading and trailing whitespace characters. -/
def pyStripList (cs : List Char) : List Char :=
  ((cs.dropWhile pySpaceChar).reverse.dropWhile pySpaceChar).reverse

/-- Model of Python `str.strip()`: remove leading and trailing whitespace. -/
def pyStrip (s : String) : String :=
  ⟨pyStripList s.data⟩

/-- Left-to-right, non-overlapping replacement of `pat` by `rep`, the
semantics of Python's `str.replace` for a non-empty pattern (the source only
replaces the non-empty patterns `"Field "` and `"Z"`; Python's special
behaviour for an empty pattern is not reachable and not modelled). -/
def pyReplaceAux (pat rep : List Char) : Nat → List Char → List Char
  | 0, l => l
  | _, [] => []
  | fuel + 1, c :: cs =>
    if pat ≠ [] ∧ pat.isPrefixOf (c :: cs) then
      rep ++ pyReplaceAux pat rep fuel ((c :: cs).drop pat.length)
    else
      c :: pyReplaceAux pat rep fuel cs

/-- Model of Python `s.replace(pat, rep)` for a non-empty pattern.  The
fuel argument of the recursion starts at the text length, which bounds
the number of steps (each step consumes at least one character), so the
fuel-exhausted base case is never reached. -/
def pyReplace (s pat rep : String) : String :=
  ⟨pyReplaceAux pat.data rep.data s.data.length s.data⟩

/-- Model of Python `s.split(',')`: split on every comma, keeping empty
pieces (so `"a,,b"` gives three pieces and `""` gives one empty piece). -/
def splitCommaAux : List Char → List (List Char)
  | [] => [[]]
  | c :: cs =>
    let r := splitCommaAux cs
    if c = ',' then [] :: r
    else
      match r with
      | [] => [[c]]
      | h :: t => (c :: h) :: t

/-- Model of Python `s.split(',')`. -/
def pySplitComma (s : String) : List String :=
  (splitCommaAux s.data).map (fun l => ⟨l⟩)

/-- Leap-year test of the Gregorian calendar (Python `calendar.isleap`,
used implicitly by `datetime`). -/
def isLeap (y : Nat) : Bool :=
  y % 4 = 0 && (y % 100 ≠ 0 || y % 400 = 0)

/-- Number of days in month `m` (1-12) of a year with leap flag `leap`. -/
def daysInMonthB (leap : Bool) (m : Nat) : Nat :=
  match m with
  | 1 => 31
  | 2 => if leap then 29 else 28
  | 3 => 31
  | 4 => 30
  | 5 => 31
  | 6 => 30
  | 7 => 31
  | 8 => 31
  | 9 => 30
  | 10 => 31
  | 11 => 30
  | 12 => 31
  | _ => 0

/-- Cumulative days before month `m` in a non-leap year (defined for
`m` up to 13, where it gives the length of the year). -/
def cumDays (m : Nat) : Nat :=
  match m with
  | 1 => 0
  | 2 => 31
  | 3 => 59
  | 4 => 90
  | 5 => 120
  | 6 => 151
  | 7 => 181
  | 8 => 212
  | 9 => 243
  | 10 => 273
  | 11 => 304
  | 12 => 334
  | _ => 365

/-- Days before month `m` in a year with leap flag `leap`. -/
def daysBeforeMonth (leap : Bool) (m : Nat) : Nat :=
  cumDays m + (if 3 ≤ m ∧ leap then 1 else 0)

/-- Days of the proleptic Gregorian calendar strictly before year `y`
counted from 0001-01-01 (so `daysBeforeYear 1 = 0`). -/
def daysBeforeYear (y : Nat) : Nat :=
  365 * (y - 1) + (y - 1) / 4 - (y - 1) / 100 + (y - 1) / 400

/-- Python `date(y, m, d).toordinal()`: 0001-01-01 is day 1. -/
def toOrdinal (y m d : Nat) : Nat :=
  daysBeforeYear y + daysBeforeMonth (isLeap y) m + d

/-- Naive (timezone-less) `datetime` value of minute granularity:
civil year, month, day, and minute of day. -/
structure NaiveDT where
  year : Nat
  month : Nat
  day : Nat
  minute : Nat
  deriving DecidableEq, Repr

/-- Linear timeline position of a naive datetime in minutes; two naive
datetimes compare (and subtract) in Python exactly as these values do. -/
def toMin (t : NaiveDT) : Int :=
  (toOrdinal t.year t.month t.day : Int) * 1440 + t.minute

/-- Timezone-aware `datetime` value of minute granularity: the civil
wall-clock reading together with its fixed UTC offset in minutes. -/
structure CalAware where
  wall : NaiveDT
  offMin : Int
  deriving DecidableEq, Repr

/-- Instant denoted by an aware datetime, in minutes UTC. -/
def CalAware.instantMin (a : CalAware) : Int :=
  toMin a.wall - a.offMin

/-- Civil date from a count of days since 1970-01-01 (standard era-based
conversion for the proleptic Gregorian calendar). -/
def civilFromDays (z : Int) : Nat × Nat × Nat :=
  let z' := z + 719468
  let era := z'.fdiv 146097
  let doe := (z' - era * 146097).toNat
  let yoe := (doe - doe / 1460 + doe / 36524 - doe / 146096) / 365
  let y : Int := (yoe : Int) + era * 400
  let doy := doe - (365 * yoe + yoe / 4 - yoe / 100)
  let mp := (5 * doy + 2) / 153
  let d := doy - (153 * mp + 2) / 5 + 1
  let m := if mp < 10 then mp + 3 else mp - 9
  ((y + (if m ≤ 2 then 1 else 0)).toNat, m, d)

/-- Civil date from a Python ordinal (0001-01-01 is ordinal 1);
ordinal of 1970-01-01 is 719163. -/
def civilFromOrdinal (n : Int) : Nat × Nat × Nat :=
  civilFromDays (n - 719163)

/-- Zero-padded two-digit decimal rendering. -/
def pad2 (n : Nat) : String :=
  if n < 10 then "0" ++ toString n else toString n

/-- Zero-padded four-digit decimal rendering. -/
def pad4 (n : Nat) : String :=
  if n < 10 then "000" ++ toString n
  else if n < 100 then "00" ++ toString n
  else if n < 1000 then "0" ++ toString n
  else toString n

/-- Weekday abbreviations of `strftime("%a")` in the C locale, indexed by
Python's `weekday()` (0 = Monday). -/
def weekdayAbbrev (i : Nat) : String :=
  match i with
  | 0 => "Mon"
  | 1 => "Tue"
  | 2 => "Wed"
  | 3 => "Thu"
  | 4 => "Fri"
  | 5 => "Sat"
  | _ => "Sun"

/-- Value of a string of decimal digit characters. -/
def digitsVal (cs : List Char) : Nat :=
  cs.foldl (fun a c => 10 * a + (c.toNat - 48)) 0

/-- Model of Python `int(s)` on the strings reachable in the source
(decimal digits surrounded by optional whitespace; `int` strips the
whitespace itself): `none` models a `ValueError` from `int`. -/
def pyInt (s : String) : Option Int :=
  let t := (pyStrip s).data
  if t ≠ [] ∧ t.all Char.isDigit then some (digitsVal t) else none

/-- Model of `re.match(r'^\d{6}$', s)` over ASCII strings: the anchor `$`
matches at the end of the string or just before one final newline, so the
pattern accepts six digits and also six digits followed by a single
trailing `'\n'`.  (Python's `\d` would additionally accept non-ASCII
Unicode digits; the development models ASCII inputs.) -/
def pyMatchSixDigits (s : String) : Bool :=
  let cs := s.data
  (cs.length = 6 && cs.all Char.isDigit) ||
    (cs.length = 7 && (cs.take 6).all Char.isDigit && cs.getLast? = some '\n')

/-- Embedding of `validate_team_id` (source lines 20-48).  The
`isinstance(team_id, str)` guard is discharged by the type of the
argument; the `try/except` around `int` re-raises the "must be" errors
unchanged, so the observable behaviour is as written here. -/
def validate_team_id (team_id : String) : Except PyErr Bool :=
  if (pyStrip team_id).data = [] then
    .error (.valueError "Team ID cannot be empty")
  else if ¬ pyMatchSixDigits team_id then
    .error (.valueError ("Team ID '" ++ team_id ++ "' must be exactly 6 digits"))
  else
    match pyInt team_id with
    | none => .error (.valueError ("Team ID '" ++ team_id ++ "' must be a valid number"))
    | some n =>
      if n ≤ 0 then
        .error (.valueError ("Team ID '" ++ team_id ++ "' must be a positive number"))
      else .ok true

/-- Suffix of an ISO-8601 timestamp as consumed by the source: either the
literal `Z` designator or an explicit UTC offset in minutes.  (A naive
timestamp without any designator would make `astimezone` consult the
system timezone; the API contract in the spec supplies a designator, and
only these forms are modelled.) -/
inductive IsoSuffix where
  | zulu
  | offset (min : Int)
  deriving DecidableEq, Repr

/-- Structured form of a `SchedGameDateTime` string: the wall-clock
reading it spells, as seconds on the linear scale of `toOrdinal`
(`wall = (toOrdinal y m d - 1) * 86400 + second of day`), plus its
suffix. -/
structure IsoDateTime where
  wall : Int
  suffix : IsoSuffix
  deriving DecidableEq, Repr

/-- Seconds value of a civil date and time of day, on the same scale as
`IsoDateTime.wall` (day 0 starts at 0001-01-01T00:00:00). -/
def civilToSecs (y m d h mi s : Nat) : Int :=
  ((toOrdinal y m d : Int) - 1) * 86400 + (h * 3600 + mi * 60 + s : Nat)

/-- Timezone-aware instant of second granularity: UTC seconds plus the
display offset in minutes (the result of `astimezone`). -/
structure AwareSec where
  instantSec : Int
  offMin : Int
  deriving DecidableEq, Repr

/-- Model of `pandas.to_datetime(...).round('min')` on a seconds-scale
instant: round to the nearest whole minute, ties to the even minute
(pandas rounds half to even). -/
def roundMin (t : Int) : Int :=
  let q := t.fdiv 60
  let r := t - 60 * q
  if r < 30 then 60 * q
  else if 30 < r then 60 * (q + 1)
  else if q % 2 = 0 then 60 * q else 60 * (q + 1)

/-- Model of `strftime("%a %m/%d %I:%M %p")` on an aware instant: format
the wall-clock reading (weekday abbreviation, zero-padded month/day,
12-hour clock, AM/PM). -/
def fmtDateA (a : AwareSec) : String :=
  let wallSec := a.instantSec + a.offMin * 60
  let days := wallSec.fdiv 86400
  let secOfDay := (wallSec - 86400 * days).toNat
  let civil := civilFromOrdinal (days + 1)
  let hour := secOfDay / 3600
  let minute := (secOfDay % 3600) / 60
  let h12 := if hour % 12 = 0 then 12 else hour % 12
  let ampm := if hour < 12 then "AM" else "PM"
  weekdayAbbrev ((days.emod 7).toNat) ++ " " ++ pad2 civil.2.1 ++ "/" ++
    pad2 civil.2.2 ++ " " ++ pad2 h12 ++ ":" ++ pad2 minute ++ " " ++ ampm

/-- Nested `team_name` holder of the API's `home_team`/`visitor_team`
objects. -/
structure TeamRef where
  team_name : Option String
  deriving DecidableEq, Repr

/-- One record of the API's `games` array, with `none` modelling an
absent key.  `Field` is the numeric field id the API serves (consumed
through `str(...)`); `field_name` is its string label. -/
structure ApiGameRec where
  game_id : Option String
  SchedGameDateTime : Option IsoDateTime
  field_name : Option String
  Field : Option Nat
  home_team : Option TeamRef
  visitor_team : Option TeamRef
  deriving DecidableEq, Repr

/-- The API's `team` object (`Season` is a number in the JSON, consumed
through `str(...)`). -/
structure TeamObj where
  Season : Option Nat
  team_name : Option String
  deriving DecidableEq, Repr

/-- Parsed JSON document returned by the API endpoint.  `invalid` models a
body that is falsy or not a dict (source line 91); in `dict`, a `games`
value of `none` models the key being absent or not a list (line 107). -/
inductive ApiDoc where
  | invalid
  | dict (team : Option TeamObj) (games : Option (List ApiGameRec))
  deriving DecidableEq, Repr

/-- Failure modes of the network collaborator (`requests.get` +
`response.json()`), translated by the source into `RuntimeError`s. -/
inductive NetFail where
  | timeout
  | connError
  | reqError (msg : String)
  | badJson (msg : String)
  deriving DecidableEq, Repr

/-- One game dictionary as built by `get_team_schedule_from_api`
(source lines 146-153). -/
structure OutGame where
  game_id : String
  date : String
  datetime_obj : AwareSec
  field : String
  home_team : String
  away_team : String
  deriving DecidableEq, Repr

/-- Field label derivation of source line 124:
`game.get("field_name", "").replace("Field ", "") if game.get("field_name")
else str(game.get("Field", ""))` (truthiness: an absent or empty
`field_name` selects the `else` branch). -/
def fieldOfRec (g : ApiGameRec) : String :=
  match g.field_name with
  | some s =>
    if s = "" then (match g.Field with | some n => toString n | none => "")
    else pyReplace s "Field " ""
  | none => match g.Field with | some n => toString n | none => ""

/-- The `home_team`/`visitor_team` name extraction of source lines
127-128: `game.get(key, {}).get("team_name", "")`. -/
def teamNameOfRef (t : Option TeamRef) : String :=
  match t with
  | some r => r.team_name.getD ""
  | none => ""

/-- Per-record body of the games loop of `get_team_schedule_from_api`
(source lines 119-156): extract the fields, skip the record when any of
timestamp, field, home team or away team is falsy, parse the timestamp by
substituting `-07:00` for a trailing `Z`, convert to the fixed UTC-7
zone, and keep the game only when it is not before the rounded current
instant.  `none` is a skipped record. -/
def processGame (now : Int) (g : ApiGameRec) : Option OutGame :=
  let game_id := g.game_id.getD ""
  let field := fieldOfRec g
  let home_team := teamNameOfRef g.home_team
  let away_team := teamNameOfRef g.visitor_team
  match g.SchedGameDateTime with
  | none => none
  | some iso =>
    if field = "" ∨ home_team = "" ∨ away_team = "" then none
    else
      let off : Int := match iso.suffix with | .zulu => -420 | .offset m => m
      let game_date : AwareSec := ⟨iso.wall - off * 60, -420⟩
      let formatted_date := fmtDateA game_date
      if roundMin now ≤ game_date.instantSec then
        some ⟨game_id, formatted_date, game_date, field, home_team, away_team⟩
      else none

/-- The games loop of `get_team_schedule_from_api` (source lines
111-160): the accumulating `all_games.append` loop. -/
def processGames (now : Int) (recs : List ApiGameRec) : List OutGame :=
  recs.foldl
    (fun acc rec =>
      match processGame now rec with
      | some g => acc ++ [g]
      | none => acc)
    []

/-- Embedding of `get_team_schedule_from_api` (source lines 50-166).
`now` is the instant read by `datetime.now(tz)` in seconds; `net` is the
network collaborator returning the parsed JSON document or a transport
failure.  Errors carry the exception the source raises. -/
def get_team_schedule_from_api (now : Int) (net : String → Except NetFail ApiDoc)
    (team_id : String) : Except PyErr (List OutGame × String × String) := do
  match validate_team_id team_id with
  | .error e => throw (.valueError e.msg)
  | .ok _ => pure ()
  match net team_id with
  | .error .timeout =>
    throw (.runtimeError ("Request timed out while fetching schedule for team "
      ++ team_id ++ ". Please try again."))
  | .error .connError =>
    throw (.runtimeError ("Connection error while fetching schedule for team "
      ++ team_id ++ ". Please check your internet connection."))
  | .error (.reqError m) =>
    throw (.runtimeError ("Failed to fetch schedule for team " ++ team_id ++ ": " ++ m))
  | .error (.badJson m) =>
    throw (.runtimeError ("Failed to parse API response for team " ++ team_id ++ ": " ++ m))
  | .ok .invalid => throw (.valueError ("Invalid API response for team " ++ team_id))
  | .ok (.dict team games?) =>
    match team with
    | none =>
      throw (.valueError ("Team ID " ++ team_id
        ++ " not found. Please verify the team code is correct."))
    | some t =>
      let SEASON := match t.Season with | some n => toString n | none => "Unknown"
      let TEAM_NAME := t.team_name.getD "Unknown Team"
      match games? with
      | none => throw (.valueError ("No games data found for team " ++ team_id))
      | some recs =>
        let all_games := processGames now recs
        if all_games.isEmpty then
          throw (.valueError "No upcoming games found for the provided team.")
        else pure (all_games, SEASON, TEAM_NAME)

/-- Token-level form of the `'date'` strings consumed by
`create_calendar_events` (`"%a %m/%d %I:%M %p"`, e.g. `"Mon 6/2 6:30 PM"`):
the numeric month, day, 12-hour hour and minute tokens together with the
AM/PM token.  The weekday token is parsed by `strptime` but its value never
affects the constructed datetime, so it carries no information and is not
recorded. -/
structure DateText where
  month : Nat
  day : Nat
  hour12 : Nat
  minute : Nat
  isPM : Bool
  deriving DecidableEq, Repr

/-- Minute of day denoted by the time tokens (`%I:%M %p`: 12 AM is hour 0,
12 PM is hour 12). -/
def DateText.minuteOfDay (d : DateText) : Nat :=
  ((d.hour12 % 12) + (if d.isPM then 12 else 0)) * 60 + d.minute

/-- Validity of the tokens under `strptime` with no year directive:
`strptime` defaults the year to 1900 (not a leap year), so `2/29` is
rejected along with out-of-range months, days, hours and minutes. -/
def valid1900 (d : DateText) : Bool :=
  1 ≤ d.month && d.month ≤ 12 && 1 ≤ d.day && d.day ≤ daysInMonthB false d.month
    && 1 ≤ d.hour12 && d.hour12 ≤ 12 && d.minute ≤ 59

/-- The naive datetime `strptime(text, "%a %m/%d %I:%M %p")` would build,
with its default year 1900; `none` models the `ValueError` strptime raises
on invalid tokens. -/
def strptime1900 (d : DateText) : Option NaiveDT :=
  if valid1900 d then some ⟨1900, d.month, d.day, d.minuteOfDay⟩ else none

/-- The naive datetime denoted by stamping the tokens with year `y`
(total; claim-level description of "stamping a game with a year"). -/
def stampClaim (y : Nat) (d : DateText) : NaiveDT :=
  ⟨y, d.month, d.day, d.minuteOfDay⟩

/-- The naive datetime `strptime(text ++ " " ++ year, "%a %m/%d %I:%M %p %Y")`
would build (source line 218): the same tokens validated against the real
year `y`, so `2/29` parses exactly when `y` is leap. -/
def strptimeWithYear (d : DateText) (y : Nat) : Option NaiveDT :=
  if 1 ≤ d.month && d.month ≤ 12 && 1 ≤ d.day && d.day ≤ daysInMonthB (isLeap y) d.month
      && 1 ≤ d.hour12 && d.hour12 ≤ 12 && d.minute ≤ 59 then
    some ⟨y, d.month, d.day, d.minuteOfDay⟩
  else none

/-- The `datetime.replace(year=...)` call of source line 202. -/
def replaceYear (t : NaiveDT) (y : Nat) : NaiveDT :=
  ⟨y, t.month, t.day, t.minute⟩

/-- One game dictionary as received by `create_calendar_events`: the
`'date'` string (as tokens), the optional `'datetime_obj'` key, and the
text fields the emitter reads.  A JSON-transported game has no
`'datetime_obj'` key (`none`); a game built by
`get_team_schedule_from_api` carries one (`some`). -/
structure CalGame where
  date : DateText
  datetimeObj : Option CalAware
  field : String
  homeTeam : String
  awayTeam : String
  deriving DecidableEq, Repr

/-- An `ics.Event` as populated by the source (lines 210-232) before
serialization: summary, aware start, fixed 45-minute duration, location
and description. -/
structure EventRec where
  name : String
  begin : CalAware
  durationMin : Nat
  location : String
  description : String
  deriving DecidableEq, Repr

/-- The hardcoded special-teams list of source line 222. -/
def specialTeams : List String :=
  ["MIXED BAG FC", "LOOKING TO SCORE", "NO BUENO O30", "EYE CANDY"]

/-- The fixed venue address of source line 227. -/
def venueLocation : String :=
  "Let's Play Soccer, Boise, 11448 W President Dr #8967, Boise, ID 83713, USA"

/-- Sequencing of a fallible step over a list (the body of Python's
per-element loops and comprehensions over `Except`): stop at the first
error, otherwise collect the results in order. -/
def mapME {α β : Type} (f : α → Except PyErr β) : List α → Except PyErr (List β)
  | [] => .ok []
  | a :: l =>
    match f a with
    | .error e => .error e
    | .ok b =>
      match mapME f l with
      | .error e => .error e
      | .ok bs => .ok (b :: bs)

/-- Insertion into a list sorted by `key` (ascending). -/
def insKey {α : Type} (key : α → Int) (x : α) : List α → List α
  | [] => [x]
  | y :: ys => if key x < key y then x :: y :: ys else y :: insKey key x ys

/-- Comparison sort by an integer key, modelling Python's `sorted(l, key=k)`
for the one observable the source reads from the sorted list (its first
element, a key-minimal element). -/
def sortKey {α : Type} (key : α → Int) : List α → List α
  | [] => []
  | x :: xs => insKey key x (sortKey key xs)

/-- Sort key of the `datetime_obj` branch (source line 191); total, with a
placeholder for the `none` case that the preceding key check makes
unreachable. -/
def awareKey (g : CalGame) : Int :=
  match g.datetimeObj with
  | some a => a.instantMin
  | none => 0

/-- Sort key of the string-parsing branch (source line 194); total, with
garbage on invalid tokens that the preceding parse check makes
unreachable. -/
def strKey (g : CalGame) : Int :=
  toMin (stampClaim 1900 g.date)

/-- Python comparison of the year-heuristic guard (source line 206):
the left operand is the aware `datetime_obj` of the first sorted game or
the naive re-parsed date string; the right operand (`one_week_ago`) is
naive.  Comparing an aware datetime with a naive one raises `TypeError`
in Python; naive-naive comparison compares the timelines. -/
def ltFirstGame (fg : CalAware ⊕ NaiveDT) (oneWeekAgoMin : Int) : Except PyErr Bool :=
  match fg with
  | .inl _ => .error (.typeError "can't compare offset-naive and offset-aware datetimes")
  | .inr n => .ok (decide (toMin n < oneWeekAgoMin))

/-- The sorting step of `create_calendar_events` (source lines 190-194):
when the first game carries `datetime_obj` sort all games by it (a missing
key on any other game raises `KeyError`); otherwise sort by
`strptime` of the date string (an unparseable string raises `ValueError`). -/
def sortedGames (selected_games : List CalGame) : Except PyErr (List CalGame) :=
  match selected_games with
  | [] => .ok []
  | g0 :: _ =>
    if g0.datetimeObj.isSome then
      match mapME (fun g =>
        match g.datetimeObj with
        | some a => Except.ok a
        | none => Except.error (PyErr.keyError "datetime_obj")) selected_games with
      | .error e => .error e
      | .ok _ => .ok (sortKey awareKey selected_games)
    else
      match mapME (fun g =>
        match strptime1900 g.date with
        | some p => Except.ok p
        | none => Except.error (PyErr.valueError
            "time data does not match format '%a %m/%d %I:%M %p'")) selected_games with
      | .error e => .error e
      | .ok _ => .ok (sortKey strKey selected_games)

/-- The year-determination block of `create_calendar_events` (source
lines 185-207): starting from the current year, look at the first sorted
game (the aware `datetime_obj` when present, otherwise the re-parsed date
string restamped with the current year) and move to the next year when it
is more than 7 days before now.  `now` is the naive instant read by
`datetime.now()`, in minutes. -/
def resolveYear (nowMin : Int) (currentYear : Nat) (sorted : List CalGame) :
    Except PyErr Nat :=
  match sorted with
  | [] => .ok currentYear
  | s0 :: _ =>
    let fgE : Except PyErr (CalAware ⊕ NaiveDT) :=
      match s0.datetimeObj with
      | some a => .ok (.inl a)
      | none =>
        match strptime1900 s0.date with
        | some p => .ok (.inr (replaceYear p currentYear))
        | none => .error (.valueError
            "time data does not match format '%a %m/%d %I:%M %p'")
    match fgE with
    | .error e => .error e
    | .ok fg =>
      match ltFirstGame fg (nowMin - 7 * 1440) with
      | .error e => .error e
      | .ok roll => .ok (if roll then currentYear + 1 else currentYear)

/-- Population of one `ics.Event` (source lines 210-232) from a game and
its determined aware start: summary and description with the
special-teams variant, fixed duration and location. -/
def eventBody (game : CalGame) (game_datetime : CalAware) : EventRec :=
  let matchup := game.homeTeam ++ " vs " ++ game.awayTeam
  let special := specialTeams.contains game.homeTeam || specialTeams.contains game.awayTeam
  { name := if special then "Special Event: " ++ matchup else matchup
    begin := game_datetime
    durationMin := 45
    location := venueLocation
    description :=
      "Field " ++ game.field ++ "\nSoccer game at Let's Play Soccer\n" ++ matchup
        ++ (if special then "\nAhhh shit, here we go again..." else "\nGLHF!") }

/-- One iteration of the event-construction loop: determine the aware
start (the `datetime_obj` when present, otherwise the date string parsed
with the resolved year at UTC-7) and fill the event. -/
def eventOfGame (year : Nat) (game : CalGame) : Except PyErr EventRec :=
  match game.datetimeObj with
  | some a => .ok (eventBody game a)
  | none =>
    match strptimeWithYear game.date year with
    | some p => .ok (eventBody game ⟨p, -420⟩)
    | none => .error (.valueError "day is out of range for month")

/-- Lines 185-234 of the source: sort, resolve the season year, and build
the event list (events are built from `selected_games` in input order;
the sorted list is only consulted for its first element). -/
def buildEvents (now : NaiveDT) (selected_games : List CalGame) :
    Except PyErr (List EventRec) :=
  match sortedGames selected_games with
  | .error e => .error e
  | .ok sorted =>
    match resolveYear (toMin now) now.year sorted with
    | .error e => .error e
    | .ok year => mapME (eventOfGame year) selected_games

/-- Escaping applied by the `ics` library to TEXT property values
(RFC 5545: backslash, semicolon, comma, and newline). -/
def escapeText (s : String) : String :=
  pyReplace (pyReplace (pyReplace (pyReplace s "\\" "\\\\") ";" "\\;") "," "\\,") "\n" "\\n"

/-- UTC basic-format timestamp of an aware instant
(`YYYYMMDDTHHMMSSZ`), as the `ics` library renders `DTSTART`. -/
def fmtUtcBasic (a : CalAware) : String :=
  let utc := a.instantMin
  let dayOrd := utc.fdiv 1440
  let minOfDay := (utc - 1440 * dayOrd).toNat
  let civil := civilFromOrdinal dayOrd
  pad4 civil.1 ++ pad2 civil.2.1 ++ pad2 civil.2.2 ++ "T" ++ pad2 (minOfDay / 60)
    ++ pad2 (minOfDay % 60) ++ "00Z"

/-- Serialized lines of one VEVENT.  Modelled from the spec: the
serialization primitive (the `ics` library's `Calendar.serialize`) emits
each event's start in absolute UTC form with no timezone reference; event
identifier lines (the library's random UID) carry no information used by
any claim and are elided. -/
def eventLines (e : EventRec) : List String :=
  ["BEGIN:VEVENT",
   "DTSTART:" ++ fmtUtcBasic e.begin,
   "DURATION:PT45M",
   "SUMMARY:" ++ escapeText e.name,
   "DESCRIPTION:" ++ escapeText e.description,
   "LOCATION:" ++ escapeText e.location,
   "END:VEVENT"]

/-- Serialized calendar (source line 237, `cal.serialize()`), as its line
sequence.  Modelled from the spec: the primitive emits a VCALENDAR
header (with the creator as PRODID), the VEVENT blocks, and the footer,
and "does not natively emit time-zone-aware recurrence rules" — no
VTIMEZONE block and no timezone-relative timestamps.  The library stores
events in a set; its iteration order is modelled as insertion order,
which no claim distinguishes. -/
def serializeCalendar (events : List EventRec) : List String :=
  ["BEGIN:VCALENDAR", "VERSION:2.0", "PRODID:Soccer Schedule API"]
    ++ events.flatMap eventLines
    ++ ["END:VCALENDAR"]

/-- The inner lines of the VALARM block of source lines 242-248 (the
text between the block string's leading and trailing newlines). -/
def valarmBody : List String :=
  ["BEGIN:VALARM", "ACTION:DISPLAY",
   "DESCRIPTION:Reminder: Soccer game starting soon",
   "TRIGGER:-PT40M", "END:VALARM"]

/-- The lines the `re.sub` insertion contributes before a line that is
exactly `END:VEVENT`: the block string starts with a newline, which
turns into an empty line after the preceding property line, followed by
the block's own lines (the trailing newline runs into `END:VEVENT`). -/
def valarmLines : List String :=
  "" :: valarmBody

/-- Left-to-right, non-overlapping split of a line's characters at every
occurrence of the substring `END:VEVENT`, the scan the regex
`END:VEVENT` performs inside one line.  The result is the list of
segments between consecutive occurrences (first segment = text before
the first occurrence; one further segment per occurrence, holding the
text that follows it up to the next one).  The fuel starts above the
text length, which bounds the recursion, so the fuel-exhausted case is
never reached. -/
def splitOnEndVevent : Nat → List Char → List (List Char)
  | 0, l => [l]
  | _, [] => [[]]
  | fuel + 1, c :: cs =>
    if ("END:VEVENT".data).isPrefixOf (c :: cs) then
      [] :: splitOnEndVevent fuel ((c :: cs).drop ("END:VEVENT".data).length)
    else
      match splitOnEndVevent fuel cs with
      | [] => [[c]]
      | h :: t => (c :: h) :: t

/-- Whether a line contains the substring `END:VEVENT` anywhere. -/
def containsEndVevent (l : String) : Bool :=
  (splitOnEndVevent (l.data.length + 1) l.data).length != 1

/-- Effect of the `re.sub(r'(END:VEVENT)', valarm_block + r'\1', ...)`
of source lines 241-250 on one line of the serialized text.  The regex
runs over the CRLF-joined document, but the pattern contains no newline,
so every match lies within a single line; at each occurrence the block
text `"\n" ++ body ++ "\n"` is inserted before the matched `END:VEVENT`,
splitting the line: the text before the first occurrence becomes its own
line, and each occurrence contributes the block's lines followed by a
line opening with `END:VEVENT` and carrying the text up to the next
occurrence.  A line with no occurrence is unchanged. -/
def injectValarmsLine (l : String) : List String :=
  match splitOnEndVevent (l.data.length + 1) l.data with
  | [] => [l]
  | [_] => [l]
  | s0 :: rest =>
    (⟨s0⟩ : String) ::
      rest.flatMap (fun si => valarmBody ++ ["END:VEVENT" ++ (⟨si⟩ : String)])

/-- The whole post-processing of source lines 241-250 on the
line-structured document: the per-line substitution applied to every
line. -/
def injectValarms (lines : List String) : List String :=
  lines.flatMap injectValarmsLine

/-- Embedding of `create_calendar_events` (source lines 168-252): build
the events, serialize, and inject the VALARM blocks.  `now` is the naive
instant read by `datetime.now()` at line 186.  The returned document is
represented by its line sequence (the Python string is these lines
CRLF-joined). -/
def create_calendar_events (now : NaiveDT) (selected_games : List CalGame) :
    Except PyErr (List String) :=
  match buildEvents now selected_games with
  | .error e => .error e
  | .ok events => .ok (injectValarms (serializeCalendar events))

/-- Python values placed into the response dictionaries passed to
`json.dumps`.  A `datetime` leaf records the aware instant the handler
stores under `'datetime_obj'`; `json.dumps` has no encoding for it. -/
inductive PyVal where
  | str (s : String)
  | num (n : Int)
  | list (l : List PyVal)
  | dict (l : List (String × PyVal))
  | datetime (instantSec : Int) (offMin : Int)
  deriving Repr

/-- JSON string escaping of `json.dumps` for the characters occurring in
the modelled values (quote, backslash, newline, carriage return, tab; the
inputs are ASCII). -/
def jsonEscape (s : String) : String :=
  pyReplace (pyReplace (pyReplace (pyReplace (pyReplace s "\\" "\\\\")
    "\"" "\\\"") "\n" "\\n") "\r" "\\r") "\t" "\\t"

mutual

/-- Model of `json.dumps`: render a value, or raise the `TypeError`
Python's encoder raises at a `datetime` leaf. -/
def dumpsVal : PyVal → Except PyErr String
  | .str s => .ok ("\"" ++ jsonEscape s ++ "\"")
  | .num n => .ok (toString n)
  | .list l => do
    let parts ← dumpsList l
    .ok ("[" ++ String.intercalate ", " parts ++ "]")
  | .dict l => do
    let parts ← dumpsDict l
    .ok ("\x7b" ++ String.intercalate ", " parts ++ "\x7d")
  | .datetime _ _ =>
    .error (.typeError "Object of type datetime is not JSON serializable")

/-- Render the elements of a JSON array. -/
def dumpsList : List PyVal → Except PyErr (List String)
  | [] => .ok []
  | v :: vs => do
    let s ← dumpsVal v
    let rest ← dumpsList vs
    .ok (s :: rest)

/-- Render the entries of a JSON object. -/
def dumpsDict : List (String × PyVal) → Except PyErr (List String)
  | [] => .ok []
  | (k, v) :: vs => do
    let s ← dumpsVal v
    let rest ← dumpsDict vs
    .ok (("\"" ++ jsonEscape k ++ "\": " ++ s) :: rest)

end

/-- One game dictionary after the handler's tagging loop (source lines
344-349): the fetched game with `team_id`, `season`, `team_name` and the
derived `id` added. -/
structure HandlerGame where
  game : OutGame
  team_id : String
  season : String
  team_name : String
  id : String
  deriving DecidableEq, Repr

/-- The tagging of source lines 345-348, including the derived
deduplication id `f"{season}_{date}_{home}_{away}_{field}"`. -/
def tagGame (team_id season team_name : String) (g : OutGame) : HandlerGame :=
  { game := g, team_id := team_id, season := season, team_name := team_name,
    id := season ++ "_" ++ g.date ++ "_" ++ g.home_team ++ "_" ++ g.away_team
      ++ "_" ++ g.field }

/-- An entry of the handler's `failed_teams` list. -/
structure FailedTeam where
  team_id : String
  error : String
  errorType : String
  deriving DecidableEq, Repr

/-- The per-team fetch loop of the handler (source lines 339-355): each
valid team id is fetched; on success its games are tagged and appended,
on any exception the id is recorded in `failed_teams` and the loop
continues. -/
def fetchBatch (now : Int) (net : String → Except NetFail ApiDoc)
    (ids : List String) : List HandlerGame × List FailedTeam :=
  ids.foldl
    (fun acc tid =>
      match get_team_schedule_from_api now net tid with
      | .ok (games, season, team_name) =>
        (acc.1 ++ games.map (tagGame tid season team_name), acc.2)
      | .error e => (acc.1, acc.2 ++ [⟨tid, e.msg, e.className⟩]))
    ([], [])

/-- PyVal view of a tagged game, with the dict keys in the insertion
order of the source (the `'datetime_obj'` entry holds the raw datetime
object). -/
def pyOfHandlerGame (g : HandlerGame) : PyVal :=
  .dict
    [("game_id", .str g.game.game_id),
     ("date", .str g.game.date),
     ("datetime_obj", .datetime g.game.datetime_obj.instantSec g.game.datetime_obj.offMin),
     ("field", .str g.game.field),
     ("home_team", .str g.game.home_team),
     ("away_team", .str g.game.away_team),
     ("team_id", .str g.team_id),
     ("season", .str g.season),
     ("team_name", .str g.team_name),
     ("id", .str g.id)]

/-- PyVal view of an `invalid_team_ids` entry. -/
def pyOfInvalid (p : String × String) : PyVal :=
  .dict [("id", .str p.1), ("reason", .str p.2)]

/-- PyVal view of a `failed_teams` entry. -/
def pyOfFailed (f : FailedTeam) : PyVal :=
  .dict [("team_id", .str f.team_id), ("error", .str f.error),
         ("errorType", .str f.errorType)]

/-- A Lambda proxy response: status code and `json.dumps`-rendered body
(the constant CORS/content-type headers are not modelled). -/
structure LambdaResp where
  statusCode : Nat
  body : String
  deriving DecidableEq, Repr

/-- The validation/deduplication loop of the handler (source lines
295-317), as a fold over (valid ids, invalid entries, seen set): an id
already seen among the valid ones is reported with reason
"Duplicate team ID"; otherwise it is validated and recorded on the
matching side. -/
def validateIdsAux (ids : List String) :
    List String × List (String × String) × List String × List String :=
  ids.foldl
    (fun acc tid =>
      if acc.2.2.1.contains tid then
        (acc.1, acc.2.1 ++ [(tid, "Duplicate team ID")], acc.2.2.1, acc.2.2.2)
      else
        match validate_team_id tid with
        | .ok _ => (acc.1 ++ [tid], acc.2.1, acc.2.2.1 ++ [tid], acc.2.2.2)
        | .error e =>
          (acc.1, acc.2.1 ++ [(tid, e.msg)], acc.2.2.1, acc.2.2.2 ++ [e.msg]))
    ([], [], [], [])

/-- The `'fetch'` action of `lambda_handler` (source lines 275-391).
`now` is the instant `datetime.now(tz)` reads inside
`get_team_schedule_from_api`; `net` is the network collaborator;
`team_ids_param` is `queryStringParameters['team_ids']` (`none` for an
absent or empty parameter).  The outer `try/except` around the fetch
loop and response construction is modelled by catching the failure of
`json.dumps` on the success body (the loop itself catches its own
exceptions per team); an exception escaping the handler would surface as
`Except.error`. -/
def lambda_handler_fetch (now : Int) (net : String → Except NetFail ApiDoc)
    (team_ids_param : Option String) : Except PyErr LambdaResp := do
  match team_ids_param with
  | none =>
    let body ← dumpsVal (.dict
      [("error", .str "Team IDs are required. Please provide at least one valid 6-digit team ID."),
       ("errorType", .str "ValidationError")])
    .ok ⟨400, body⟩
  | some param =>
    let team_ids := ((pySplitComma param).map pyStrip).filter (fun s => s ≠ "")
    let vres := validateIdsAux team_ids
    let valid_team_ids := vres.1
    let invalid_team_ids := vres.2.1
    let validation_errors := vres.2.2.2
    if valid_team_ids = [] then
      let body ← dumpsVal (.dict
        [("error", .str "No valid team IDs provided"),
         ("errorType", .str "ValidationError"),
         ("invalid_ids", .list (invalid_team_ids.map pyOfInvalid)),
         ("validation_errors", .list (validation_errors.map (fun s => PyVal.str s)))])
      .ok ⟨400, body⟩
    else
      let fres := fetchBatch now net valid_team_ids
      let all_games := fres.1
      let failed_teams := fres.2
      let response_body : PyVal := .dict
        ([("games", .list (all_games.map pyOfHandlerGame)),
          ("processed_team_ids", .list (valid_team_ids.map .str))]
         ++ (if failed_teams ≠ [] then
              [("failed_teams", .list (failed_teams.map pyOfFailed))] else [])
         ++ (if invalid_team_ids ≠ [] then
              [("invalid_team_ids", .list (invalid_team_ids.map pyOfInvalid))] else []))
      match dumpsVal response_body with
      | .ok body => .ok ⟨200, body⟩
      | .error e =>
        let body ← dumpsVal (.dict
          [("error", .str ("An unexpected error occurred: " ++ e.msg)),
           ("errorType", .str e.className),
           ("processed_team_ids", .list (valid_team_ids.map .str)),
           ("failed_teams", .list (failed_teams.map pyOfFailed)),
           ("invalid_team_ids", .list (invalid_team_ids.map pyOfInvalid))])
        .ok ⟨500, body⟩

/-- Field derivation as the claim describes it: every occurrence of
`"Field "` removed from a present, non-empty `field_name`; otherwise the
string form of `Field`, empty when that too is absent. -/
def claimFieldOf (g : ApiGameRec) : String :=
  match g.field_name with
  | some s =>
    if s ≠ "" then pyReplace s "Field " ""
    else match g.Field with | some n => toString n | none => ""
  | none => match g.Field with | some n => toString n | none => ""

/-- Minimum of a list of integers (0 for the empty list, which no use
reaches). -/
def minI : List Int → Int
  | [] => 0
  | x :: xs => xs.foldl min x

/-- Maximum of a list of integers (0 for the empty list, which no use
reaches). -/
def maxI : List Int → Int
  | [] => 0
  | x :: xs => xs.foldl max x

/-- Claim-side "earliest game so stamped": the minimum over the games of
the date tokens stamped with year `y`, on the minute timeline. -/
def claimEarliest (y : Nat) (games : List CalGame) : Int :=
  minI (games.map (fun g => toMin (stampClaim y g.date)))

/-- Claim-side resolved year: the current calendar year, or the next one
when the earliest stamped game falls more than 7 days before now. -/
def claimYear (now : NaiveDT) (games : List CalGame) : Nat :=
  if claimEarliest now.year games < toMin now - 7 * 1440 then now.year + 1
  else now.year

/-- Claim-side span of the parsed schedule in minutes: latest minus
earliest parsed date, all stamped with one common year. -/
def claimSpanMin (y : Nat) (games : List CalGame) : Int :=
  maxI (games.map (fun g => toMin (stampClaim y g.date)))
    - claimEarliest y games

/-- Concrete structured-API record with the spec example's Z-suffixed
timestamp `2025-07-04T19:00:00Z`. -/
def recC1 : ApiGameRec :=
  ⟨some "g1", some ⟨civilToSecs 2025 7 4 19 0 0, .zulu⟩, some "Field 3", none,
    some ⟨some "HOME"⟩, some ⟨some "AWAY"⟩⟩

/-- The game `processGame` keeps for `recC1` at instant 0. -/
def outC1 : OutGame := (processGame 0 recC1).get (by decide)

/-- Concrete fallback game rows (no `datetime_obj`): `"Mon 6/2 6:30 PM"`
and a second row at `9/15 7:15 PM`, 105 days later. -/
def gFallA : CalGame := ⟨⟨6, 2, 6, 30, true⟩, none, "3", "A United", "B City"⟩

/-- Second fallback game row. -/
def gFallB : CalGame := ⟨⟨9, 15, 7, 15, true⟩, none, "4", "C Town", "D Rovers"⟩

/-- The spec example's second row, `"Wed 6/4 7:15 PM"`. -/
def gFallC : CalGame := ⟨⟨6, 4, 7, 15, true⟩, none, "4", "C Town", "D Rovers"⟩

/-- The spec example's "now": `2025-06-01T00:00:00`. -/
def nowCal : NaiveDT := ⟨2025, 6, 1, 0⟩

/-- Concrete canonical game (tz-aware `datetime_obj` present). -/
def gAware : CalGame :=
  ⟨⟨6, 2, 6, 30, true⟩, some ⟨⟨2025, 6, 2, 1110⟩, -420⟩, "3", "A United", "B City"⟩

/-- Concrete API document for a successful fetch of team `123456`. -/
def docC6 : ApiDoc := .dict (some ⟨some 98, some "My Team"⟩) (some [recC1])

/-- Network oracle: team `123456` fetches `docC6`; every other id times
out. -/
def netC6 : String → Except NetFail ApiDoc :=
  fun tid => if tid = "123456" then .ok docC6 else .error .timeout

/-- The event the emitter produces for a game on the string-date path
once the season year is resolved: the date tokens stamped with that year
at the fixed UTC-7 offset. -/
def mkFallbackEvent (y : Nat) (g : CalGame) : EventRec :=
  eventBody g ⟨stampClaim y g.date, -420⟩

/-- Record whose game falls 5 seconds into the current minute, at
instant 60005 on the seconds scale. -/
def recC8 : ApiGameRec :=
  ⟨some "gw", some ⟨60005, .offset 0⟩, some "Field 9", none,
    some ⟨some "HW"⟩, some ⟨some "VW"⟩⟩

/-- The game `processGames` keeps for `recC8` when now is 60010. -/
def outC8 : OutGame := (processGame 60010 recC8).get (by decide)

/-- Network oracle serving a schedule whose only game is `recC8`'s. -/
def netC8 : String → Except NetFail ApiDoc :=
  fun _ => .ok (.dict (some ⟨some 7, some "TW"⟩) (some [recC8]))

/-- The event list `buildEvents` produces for the single fallback game
`gFallA`. -/
def evsC3 : List EventRec :=
  ((buildEvents nowCal [gFallA]).toOption).get (by decide)

/-- The line sequence `create_calendar_events` emits for the single
fallback game `gFallA`. -/
def linesC3 : List String :=
  ((create_calendar_events nowCal [gFallA]).toOption).get (by decide)

/-- Record with a game at instant 200000. -/
def recC9A : ApiGameRec :=
  ⟨some "ga", some ⟨200000, .offset 0⟩, some "Field 1", none,
    some ⟨some "H1"⟩, some ⟨some "V1"⟩⟩

/-- Record with a game at instant 100000 (earlier than `recC9A`'s). -/
def recC9B : ApiGameRec :=
  ⟨some "gb", some ⟨100000, .offset 0⟩, some "Field 2", none,
    some ⟨some "H2"⟩, some ⟨some "V2"⟩⟩

/-- Network oracle for the merge-order scenario: team `111111` has the
later game, team `222222` the earlier one. -/
def netC9 : String → Except NetFail ApiDoc :=
  fun tid =>
    if tid = "111111" then .ok (.dict (some ⟨some 1, some "T1"⟩) (some [recC9A]))
    else .ok (.dict (some ⟨some 2, some "T2"⟩) (some [recC9B]))

/-- Claim-side acceptance predicate for the amended C7: six decimal
digits, optionally followed by one trailing newline, with positive
numeric value. -/
def c7Spec (s : String) : Bool :=
  (s.data.length = 6 || (s.data.length = 7 && s.data.getLast? = some '\n'))
    && (s.data.take 6).all Char.isDigit
    && decide (0 < digitsVal (s.data.take 6))

/-! ### General helper lemmas -/

/-- An `Except.toOption` value determines the `ok` form. -/
theorem exceptOk_of_toOption {ε α : Type} {o : Except ε α} {x : α}
    (h : o.toOption = some x) : o = .ok x := by
  cases o with
  | ok v => simp [Except.toOption] at h; rw [h]
  | error e => simp [Except.toOption] at h

/-- `mapME` preserves list length. -/
theorem mapME_ok_length {α β : Type} (f : α → Except PyErr β) :
    ∀ (l : List α) (out : List β), mapME f l = .ok out → out.length = l.length := by
  intro l
  induction l with
  | nil => intro out h; simp [mapME] at h; simp [← h]
  | cons a t ih =>
    intro out h
    simp only [mapME] at h
    cases hfa : f a with
    | error e => rw [hfa] at h; simp at h
    | ok b =>
      rw [hfa] at h
      cases ht : mapME f t with
      | error e => rw [ht] at h; simp at h
      | ok bs =>
        rw [ht] at h
        simp at h
        rw [← h]
        simp [ih bs ht]

/-- When every step succeeds with a known value, `mapME` is the map of
those values. -/
theorem mapME_eq_map {α β : Type} (f : α → Except PyErr β) (g : α → β) :
    ∀ (l : List α), (∀ a ∈ l, f a = .ok (g a)) → mapME f l = .ok (l.map g) := by
  intro l
  induction l with
  | nil => intro _; simp [mapME]
  | cons a t ih =>
    intro h
    simp only [mapME]
    rw [h a (by simp), ih (fun x hx => h x (by simp [hx]))]
    simp

/-- When every step succeeds, `mapME` succeeds. -/
theorem mapME_ok_of_forall {α β : Type} (f : α → Except PyErr β) :
    ∀ (l : List α), (∀ a ∈ l, (f a).toOption.isSome) → ∃ v, mapME f l = .ok v := by
  intro l
  induction l with
  | nil => intro _; exact ⟨[], rfl⟩
  | cons a t ih =>
    intro h
    obtain ⟨v, hv⟩ := ih (fun x hx => h x (by simp [hx]))
    cases hfa : f a with
    | error e => exact absurd (hfa ▸ h a (by simp)) (by simp [Except.toOption])
    | ok b => exact ⟨b :: v, by simp [mapME, hfa, hv]⟩

/-- Membership through `insKey`. -/
theorem mem_insKey {α : Type} (key : α → Int) (x a : α) :
    ∀ (l : List α), a ∈ insKey key x l ↔ a = x ∨ a ∈ l := by
  intro l
  induction l with
  | nil => simp [insKey]
  | cons y ys ih =>
    simp only [insKey]
    by_cases h : key x < key y
    · simp [h]
    · simp [h, ih]
      tauto

/-- `insKey` never produces the empty list. -/
theorem insKey_ne_nil {α : Type} (key : α → Int) (x : α) (l : List α) :
    insKey key x l ≠ [] := by
  cases l with
  | nil => simp [insKey]
  | cons y ys =>
    simp only [insKey]
    by_cases h : key x < key y <;> simp [h]

/-- Folding `min` distributes over a seeded minimum. -/
theorem foldl_min_eq (l : List Int) :
    ∀ a b : Int, List.foldl min (min a b) l = min a (List.foldl min b l) := by
  induction l with
  | nil => intro a b; rfl
  | cons c cs ih =>
    intro a b
    simp only [List.foldl]
    rw [min_assoc, ih]

/-- Fold step of `minI` on a non-empty tail. -/
theorem foldl_min_cons (a b : Int) (bs : List Int) :
    List.foldl min a (b :: bs) = min a (List.foldl min b bs) := by
  simp only [List.foldl]
  exact foldl_min_eq bs a b

/-- `minI` of a two-or-more-element list peels its head. -/
theorem minI_cons (a b : Int) (bs : List Int) :
    minI (a :: b :: bs) = min a (minI (b :: bs)) := by
  simp only [minI]
  exact foldl_min_cons a b bs

/-- The head of `sortKey` is an element of the input that minimises the
key. -/
theorem sortKey_head_min {α : Type} (key : α → Int) :
    ∀ (l : List α), l ≠ [] →
      ∃ x t, sortKey key l = x :: t ∧ x ∈ l ∧ ∀ y ∈ l, key x ≤ key y := by
  intro l
  induction l with
  | nil => intro h; exact absurd rfl h
  | cons a as ih =>
    intro _
    by_cases hn : as = []
    · subst hn
      exact ⟨a, [], by simp [sortKey, insKey], by simp, by simp⟩
    · obtain ⟨x, t, hsort, hmem, hmin⟩ := ih hn
      simp only [sortKey, hsort, insKey]
      by_cases h : key a < key x
      · refine ⟨a, x :: t, by simp [h], by simp, ?_⟩
        intro y hy
        rcases List.mem_cons.mp hy with rfl | hy
        · exact le_refl _
        · exact le_of_lt (lt_of_lt_of_le h (hmin y hy))
      · refine ⟨x, insKey key a t, by simp [h], by simp [hmem], ?_⟩
        intro y hy
        rcases List.mem_cons.mp hy with rfl | hy
        · exact not_lt.mp h
        · exact hmin y hy

/-- `minI` of a non-empty list is a member. -/
theorem minI_mem : ∀ (l : List Int), l ≠ [] → minI l ∈ l := by
  intro l
  induction l with
  | nil => intro h; exact absurd rfl h
  | cons a as ih =>
    intro _
    cases as with
    | nil => simp [minI]
    | cons b bs =>
      rw [minI_cons]
      rcases le_total a (minI (b :: bs)) with h | h
      · simp [min_eq_left h]
      · rw [min_eq_right h]
        exact List.mem_cons_of_mem a (ih (by simp))

/-- `minI` of a list bounds every member from below. -/
theorem minI_le : ∀ (l : List Int), ∀ y ∈ l, minI l ≤ y := by
  intro l
  induction l with
  | nil => simp
  | cons a as ih =>
    intro y hy
    cases as with
    | nil =>
      simp at hy
      simp [minI, hy]
    | cons b bs =>
      rw [minI_cons]
      rcases List.mem_cons.mp hy with rfl | hy
      · exact min_le_left _ _
      · exact le_trans (min_le_right _ _) (ih y hy)

/-- `minI` is the unique lower-bounding member. -/
theorem minI_eq (l : List Int) (x : Int) (hx : x ∈ l) (hmin : ∀ y ∈ l, x ≤ y) :
    minI l = x :=
  le_antisymm (minI_le l x hx) (hmin _ (minI_mem l (by rintro rfl; simp at hx)))

/-- Two strings differ when their first characters differ, even under an
arbitrary appended tail. -/
theorem append_ne_of_head_ne {c d : Char} {cs ds : List Char} (p q x : String)
    (hp : p.data = c :: cs) (hq : q.data = d :: ds) (hcd : c ≠ d) : p ++ x ≠ q := by
  intro h
  have h2 := congrArg String.data h
  rw [String.data_append, hp, hq, List.cons_append] at h2
  exact hcd (List.cons.inj h2).1

/-- Taking at most the length of the left part of an append stays inside
it. -/
theorem takeAppendOfLe {α : Type} :
    ∀ (n : Nat) (l m : List α), n ≤ l.length → (l ++ m).take n = l.take n := by
  intro n
  induction n with
  | zero => intro l m _; simp
  | succ k ih =>
    intro l m h
    cases l with
    | nil => simp at h
    | cons a t =>
      simp only [List.cons_append, List.take]
      rw [show t.append m = t ++ m from rfl, ih t m (by simpa using h)]

/-- Counts of the structural markers inside one serialized event block:
one `END:VEVENT`, no VALARM and no VTIMEZONE lines.  The content-bearing
lines all open with their property name, so they can never equal a
`BEGIN:`/`END:` marker line whatever the game's text fields are. -/
theorem eventLines_counts (e : EventRec) :
    (eventLines e).count "END:VEVENT" = 1 ∧
    (eventLines e).count "BEGIN:VALARM" = 0 ∧
    (eventLines e).count "BEGIN:VTIMEZONE" = 0 := by
  have hd : ("DTSTART:" ++ fmtUtcBasic e.begin) ≠ "END:VEVENT" :=
    append_ne_of_head_ne _ _ _ rfl rfl (by decide)
  have hs : ("SUMMARY:" ++ escapeText e.name) ≠ "END:VEVENT" :=
    append_ne_of_head_ne _ _ _ rfl rfl (by decide)
  have hde : ("DESCRIPTION:" ++ escapeText e.description) ≠ "END:VEVENT" :=
    append_ne_of_head_ne _ _ _ rfl rfl (by decide)
  have hl : ("LOCATION:" ++ escapeText e.location) ≠ "END:VEVENT" :=
    append_ne_of_head_ne _ _ _ rfl rfl (by decide)
  have hd2 : ("DTSTART:" ++ fmtUtcBasic e.begin) ≠ "BEGIN:VALARM" :=
    append_ne_of_head_ne _ _ _ rfl rfl (by decide)
  have hs2 : ("SUMMARY:" ++ escapeText e.name) ≠ "BEGIN:VALARM" :=
    append_ne_of_head_ne _ _ _ rfl rfl (by decide)
  have hde2 : ("DESCRIPTION:" ++ escapeText e.description) ≠ "BEGIN:VALARM" :=
    append_ne_of_head_ne _ _ _ rfl rfl (by decide)
  have hl2 : ("LOCATION:" ++ escapeText e.location) ≠ "BEGIN:VALARM" :=
    append_ne_of_head_ne _ _ _ rfl rfl (by decide)
  have hd3 : ("DTSTART:" ++ fmtUtcBasic e.begin) ≠ "BEGIN:VTIMEZONE" :=
    append_ne_of_head_ne _ _ _ rfl rfl (by decide)
  have hs3 : ("SUMMARY:" ++ escapeText e.name) ≠ "BEGIN:VTIMEZONE" :=
    append_ne_of_head_ne _ _ _ rfl rfl (by decide)
  have hde3 : ("DESCRIPTION:" ++ escapeText e.description) ≠ "BEGIN:VTIMEZONE" :=
    append_ne_of_head_ne _ _ _ rfl rfl (by decide)
  have hl3 : ("LOCATION:" ++ escapeText e.location) ≠ "BEGIN:VTIMEZONE" :=
    append_ne_of_head_ne _ _ _ rfl rfl (by decide)
  refine ⟨?_, ?_, ?_⟩ <;>
    simp [eventLines, List.count_cons, hd, hs, hde, hl, hd2, hs2, hde2, hl2,
      hd3, hs3, hde3, hl3]

/-- Marker counts of the serialized calendar: one `END:VEVENT` per event
and no VALARM or VTIMEZONE lines anywhere. -/
theorem serializeCalendar_counts (evs : List EventRec) :
    (serializeCalendar evs).count "END:VEVENT" = evs.length ∧
    (serializeCalendar evs).count "BEGIN:VALARM" = 0 ∧
    (serializeCalendar evs).count "BEGIN:VTIMEZONE" = 0 := by
  have hflat : ∀ (l : List EventRec) (s : String) (k : Nat),
      (∀ e : EventRec, (eventLines e).count s = k) →
      (l.flatMap eventLines).count s = k * l.length := by
    intro l s k hk
    induction l with
    | nil => simp
    | cons e t ih =>
      simp only [List.flatMap_cons, List.count_append, ih, hk e, List.length_cons]
      ring
  refine ⟨?_, ?_, ?_⟩ <;>
    simp [serializeCalendar, List.count_append, List.count_cons,
      hflat _ _ 1 (fun e => (eventLines_counts e).1),
      hflat _ _ 0 (fun e => (eventLines_counts e).2.1),
      hflat _ _ 0 (fun e => (eventLines_counts e).2.2)]

/-- A line with no occurrence of `END:VEVENT` passes through the
substitution unchanged. -/
theorem injectValarmsLine_clean (l : String) (h : containsEndVevent l = false) :
    injectValarmsLine l = [l] := by
  unfold containsEndVevent at h
  simp only [bne_eq_false_iff_eq] at h
  obtain ⟨x, hx⟩ := List.length_eq_one.mp h
  unfold injectValarmsLine
  rw [hx]

/-- A line that is exactly `END:VEVENT` expands to the VALARM block
followed by the line. -/
theorem injectValarmsLine_endvevent :
    injectValarmsLine "END:VEVENT" = valarmLines ++ ["END:VEVENT"] := by decide

/-- The structural marker line contains the marker. -/
theorem containsEndVevent_self : containsEndVevent "END:VEVENT" = true := by decide

/-- On documents whose property lines do not themselves embed the text
`END:VEVENT` (each line is the structural marker or marker-free), the
VALARM injection adds one VALARM block per `END:VEVENT` line and
nothing else: its effect on the three marker counts. -/
theorem injectValarms_counts (ls : List String)
    (hclean : ∀ l ∈ ls, l = "END:VEVENT" ∨ containsEndVevent l = false) :
    (injectValarms ls).count "BEGIN:VALARM"
        = ls.count "BEGIN:VALARM" + ls.count "END:VEVENT" ∧
    (injectValarms ls).count "END:VEVENT" = ls.count "END:VEVENT" ∧
    (injectValarms ls).count "BEGIN:VTIMEZONE" = ls.count "BEGIN:VTIMEZONE" := by
  have v1 : valarmLines.count "BEGIN:VALARM" = 1 := by decide
  have v2 : valarmLines.count "END:VEVENT" = 0 := by decide
  have v3 : valarmLines.count "BEGIN:VTIMEZONE" = 0 := by decide
  induction ls with
  | nil => simp [injectValarms]
  | cons l t ih =>
    obtain ⟨ih1, ih2, ih3⟩ := ih (fun x hx => hclean x (by simp [hx]))
    simp only [injectValarms, List.flatMap_cons] at ih1 ih2 ih3 ⊢
    rcases hclean l (by simp) with h | h
    · subst h
      rw [injectValarmsLine_endvevent]
      refine ⟨?_, ?_, ?_⟩ <;>
        simp [List.count_append, List.count_cons, ih1, ih2, ih3, v1, v2, v3] <;>
        omega
    · have hne : l ≠ "END:VEVENT" := by
        rintro rfl
        rw [containsEndVevent_self] at h
        exact Bool.noConfusion h
      rw [injectValarmsLine_clean l h]
      refine ⟨?_, ?_, ?_⟩ <;>
        simp [List.count_append, List.count_cons, ih1, ih2, ih3, hne] <;>
        omega

/-- A successful `buildEvents` yields one event per input game. -/
theorem buildEvents_ok_length (now : NaiveDT) (games : List CalGame)
    (evs : List EventRec) (h : buildEvents now games = .ok evs) :
    evs.length = games.length := by
  unfold buildEvents at h
  cases hs : sortedGames games with
  | error e => rw [hs] at h; simp at h
  | ok sorted =>
    rw [hs] at h
    dsimp only at h
    cases hy : resolveYear (toMin now) now.year sorted with
    | error e => rw [hy] at h; simp at h
    | ok year =>
      rw [hy] at h
      dsimp only at h
      exact mapME_ok_length _ _ _ h

/-- Every line of an emitted document that opens with `DTSTART` is the
absolute-UTC form the serializer wrote, provided the serialized property
lines do not themselves embed the text `END:VEVENT`. -/
theorem dtstart_lines_utc (evs : List EventRec) (l : String)
    (hclean : ∀ l ∈ serializeCalendar evs,
      l = "END:VEVENT" ∨ containsEndVevent l = false)
    (hmem : l ∈ injectValarms (serializeCalendar evs))
    (hpre : l.data.take 7 = "DTSTART".data) :
    ∃ b, l = "DTSTART:" ++ fmtUtcBasic b := by
  rcases List.mem_flatMap.mp hmem with ⟨src, hsrc, hl⟩
  have hl' : l ∈ valarmLines ∨ l = src := by
    rcases hclean src hsrc with h | h
    · subst h
      rw [injectValarmsLine_endvevent] at hl
      rcases List.mem_append.mp hl with h1 | h1
      · exact Or.inl h1
      · simp at h1
        exact Or.inr h1
    · rw [injectValarmsLine_clean src h] at hl
      simp at hl
      exact Or.inr hl
  rcases hl' with hv | rfl
  · exfalso
    simp only [valarmLines, valarmBody, List.mem_cons, List.not_mem_nil,
      or_false] at hv
    rcases hv with rfl | rfl | rfl | rfl | rfl | rfl <;> exact absurd hpre (by decide)
  · simp only [serializeCalendar] at hsrc
    rcases List.mem_append.mp hsrc with h1 | h1
    · rcases List.mem_append.mp h1 with h2 | h2
      · exfalso
        simp only [List.mem_cons, List.not_mem_nil, or_false] at h2
        rcases h2 with rfl | rfl | rfl <;> exact absurd hpre (by decide)
      · rcases List.mem_flatMap.mp h2 with ⟨e, _, hle⟩
        simp only [eventLines, List.mem_cons, List.not_mem_nil, or_false] at hle
        have hsum : ∀ (p x : String), 7 ≤ p.data.length → l = p ++ x →
            l.data.take 7 = p.data.take 7 := by
          intro p x hlen hpx
          rw [hpx, String.data_append, takeAppendOfLe 7 _ _ hlen]
        rcases hle with rfl | h3 | rfl | h3 | h3 | h3 | rfl
        · exact absurd hpre (by decide)
        · exact ⟨e.begin, h3⟩
        · exact absurd hpre (by decide)
        · rw [hsum _ _ (by decide) h3] at hpre
          exact absurd hpre (by decide)
        · rw [hsum _ _ (by decide) h3] at hpre
          exact absurd hpre (by decide)
        · rw [hsum _ _ (by decide) h3] at hpre
          exact absurd hpre (by decide)
        · exact absurd hpre (by decide)
    · exfalso
      simp only [List.mem_cons, List.not_mem_nil, or_false] at h1
      subst h1
      exact absurd hpre (by decide)

/-- C3: claim falsified — `create_calendar_events` injects no VTIMEZONE
block at all: for the concrete one-game input the emitted document has
zero `BEGIN:VTIMEZONE` lines (the claim requires exactly one), while one
VALARM block was injected. -/
theorem c3_counterexample :
    (create_calendar_events nowCal [gFallA]).map
        (fun ls => (ls.count "BEGIN:VTIMEZONE", ls.count "BEGIN:VALARM"))
      = .ok (0, 1) := by decide

/-- C3 (amended): the only post-serialization processing is the VALARM
substitution, which inserts the block before every occurrence of the
text `END:VEVENT`; no VTIMEZONE block is ever emitted.  On inputs whose
serialized property lines do not themselves embed `END:VEVENT` — every
occurrence of the marker is a structural event terminator — exactly one
VALARM block is injected per event and every `DTSTART` line keeps the
serializer's absolute-UTC form. -/
theorem c3_valarm_only_no_vtimezone (now : NaiveDT) (games : List CalGame)
    (evs : List EventRec) (lines : List String)
    (hb : buildEvents now games = .ok evs)
    (h : create_calendar_events now games = .ok lines)
    (hclean : ∀ l ∈ serializeCalendar evs,
      l = "END:VEVENT" ∨ containsEndVevent l = false) :
    lines.count "BEGIN:VTIMEZONE" = 0 ∧
    lines.count "BEGIN:VALARM" = games.length ∧
    lines.count "END:VEVENT" = games.length ∧
    ∀ l ∈ lines, l.data.take 7 = "DTSTART".data →
      ∃ b, l = "DTSTART:" ++ fmtUtcBasic b := by
  unfold create_calendar_events at h
  rw [hb] at h
  dsimp only at h
  have hlines : lines = injectValarms (serializeCalendar evs) :=
    (Except.ok.injEq _ _ ▸ h).symm
  have hlen : evs.length = games.length := buildEvents_ok_length now games evs hb
  obtain ⟨s1, s2, s3⟩ := serializeCalendar_counts evs
  obtain ⟨i1, i2, i3⟩ := injectValarms_counts (serializeCalendar evs) hclean
  subst hlines
  refine ⟨by rw [i3, s3], by rw [i1, s2, s1, hlen]; omega,
    by rw [i2, s1, hlen], ?_⟩
  intro l hmem hpre
  exact dtstart_lines_utc evs l hclean hmem hpre

/-- Witness for the amended C3 at the concrete one-game input: its
serialized lines are clean, and the emitted document carries no
VTIMEZONE line and exactly one VALARM block. -/
theorem c3_witness :
    buildEvents nowCal [gFallA] = .ok evsC3 ∧
    create_calendar_events nowCal [gFallA] = .ok linesC3 ∧
    linesC3.count "BEGIN:VTIMEZONE" = 0 ∧ linesC3.count "BEGIN:VALARM" = 1 := by
  have hb : buildEvents nowCal [gFallA] = .ok evsC3 :=
    exceptOk_of_toOption (Option.some_get _).symm
  have h : create_calendar_events nowCal [gFallA] = .ok linesC3 :=
    exceptOk_of_toOption (Option.some_get _).symm
  have hc := c3_valarm_only_no_vtimezone nowCal [gFallA] evsC3 linesC3 hb h
    (by decide)
  exact ⟨hb, h, hc.1, by simpa using hc.2.1⟩

/-- C4: code bug — for a canonical game (carrying a timezone-aware
`datetime_obj`), `create_calendar_events` does not return a calendar: the
year heuristic compares the aware first game against the naive
`datetime.now() - 7 days` and raises `TypeError`. -/
theorem c4_emitter_crashes_on_canonical :
    create_calendar_events nowCal [gAware]
      = .error (.typeError "can't compare offset-naive and offset-aware datetimes") := by
  decide

/-- C4 (general form): the crash is not specific to the concrete input —
every nonempty list of canonical games makes the emitter raise the same
`TypeError`. -/
theorem c4_emitter_crashes_general (now : NaiveDT) (games : List CalGame)
    (hne : games ≠ []) (hall : ∀ g ∈ games, g.datetimeObj.isSome) :
    create_calendar_events now games
      = .error (.typeError "can't compare offset-naive and offset-aware datetimes") := by
  obtain ⟨g0, rest, rfl⟩ := List.exists_cons_of_ne_nil hne
  have h0 : g0.datetimeObj.isSome := hall g0 (by simp)
  have hsort : sortedGames (g0 :: rest) = .ok (sortKey awareKey (g0 :: rest)) := by
    unfold sortedGames
    dsimp only
    rw [if_pos h0]
    obtain ⟨v, hv⟩ := mapME_ok_of_forall
      (fun g : CalGame =>
        match g.datetimeObj with
        | some a => Except.ok a
        | none => Except.error (PyErr.keyError "datetime_obj"))
      (g0 :: rest)
      (fun g hg => by
        cases hg2 : g.datetimeObj with
        | some a => simp [hg2, Except.toOption]
        | none => exact absurd (hg2 ▸ hall g hg) (by simp))
    rw [hv]
  obtain ⟨x, t, hxt, hxmem, _⟩ :=
    sortKey_head_min awareKey (g0 :: rest) (by simp)
  cases hx : x.datetimeObj with
  | none => exact absurd (hx ▸ hall x hxmem) (by simp)
  | some a =>
    unfold create_calendar_events buildEvents
    rw [hsort]
    dsimp only
    unfold resolveYear
    rw [hxt]
    dsimp only
    rw [hx]
    dsimp only [ltFirstGame]

/-- Witness that the general C4 statement applies to a concrete
canonical game. -/
theorem c4_witness :
    ([gAware] ≠ ([] : List CalGame)) ∧
    create_calendar_events nowCal [gAware]
      = .error (.typeError "can't compare offset-naive and offset-aware datetimes") :=
  ⟨by decide, c4_emitter_crashes_general nowCal [gAware] (by decide) (by decide)⟩

/-- C6: code bug — with one valid team id whose fetch succeeds and
returns a game, the handler's fetch action answers 500, not the claimed
200 partial-result response: `json.dumps` cannot serialize the raw
`datetime` stored under `'datetime_obj'` in each returned game.  The
merge itself did retrieve one game. -/
theorem c6_fetch_returns_500 :
    (lambda_handler_fetch 0 netC6 (some "123456")).map (fun r => r.statusCode)
        = .ok 500 ∧
    (fetchBatch 0 netC6 ["123456"]).1.length = 1 := by
  constructor <;> decide

/-- C6 (companion): the same batch answers 200 when every team fails
(empty games list serializes), showing the 500 is caused precisely by the
retrieved games. -/
theorem c6_all_failed_returns_200 :
    (lambda_handler_fetch 0 netC6 (some "654321")).map (fun r => r.statusCode)
      = .ok 200 := by decide

/-- C1 (amended): a `Z`-suffixed `SchedGameDateTime` is resolved by
substituting `-07:00` for the `Z`: the wall-clock digits are kept and
read at the fixed `-7` hour offset, so the resolved instant is the wall
reading plus 7 hours (25200 s) of UTC — not the instant the text denoted
as UTC. -/
theorem c1_z_reinterpreted (now : Int) (rec : ApiGameRec) (iso : IsoDateTime)
    (out : OutGame) (hiso : rec.SchedGameDateTime = some iso)
    (hz : iso.suffix = .zulu) (hout : processGame now rec = some out) :
    out.datetime_obj = ⟨iso.wall + 25200, -420⟩ := by
  unfold processGame at hout
  rw [hiso] at hout
  dsimp only at hout
  rw [hz] at hout
  dsimp only at hout
  split at hout
  · exact absurd hout (by simp)
  · split at hout
    · have := (Option.some.injEq _ _ ▸ hout)
      rw [← this]
      have harith : iso.wall - (-420 : Int) * 60 = iso.wall + 25200 := by omega
      simp [harith]
    · exact absurd hout (by simp)

/-- Witness for the amended C1 at the spec example's record:
`2025-07-04T19:00:00Z` resolves to the instant `2025-07-04T19:00:00-07:00`
(02:00 UTC on July 5). -/
theorem c1_witness :
    recC1.SchedGameDateTime = some ⟨civilToSecs 2025 7 4 19 0 0, .zulu⟩ ∧
    processGame 0 recC1 = some outC1 ∧
    outC1.datetime_obj = ⟨civilToSecs 2025 7 4 19 0 0 + 25200, -420⟩ :=
  ⟨rfl, (Option.some_get _).symm,
    c1_z_reinterpreted 0 recC1 ⟨civilToSecs 2025 7 4 19 0 0, .zulu⟩ outC1 rfl rfl
      (Option.some_get _).symm⟩

/-- C1: claim falsified — the record with
`SchedGameDateTime = "2025-07-04T19:00:00Z"` resolves to the instant
`2025-07-05T02:00:00Z` (that is, `2025-07-04T19:00:00-07:00`), which is
not the claimed `2025-07-04T12:00:00-07:00` (= `19:00Z` as an instant):
the code preserves the wall clock, not the instant. -/
theorem c1_counterexample :
    (get_team_schedule_from_api 0 netC6 "123456").map
        (fun r => r.1.map (fun g => g.datetime_obj.instantSec))
      = .ok [civilToSecs 2025 7 5 2 0 0] ∧
    civilToSecs 2025 7 5 2 0 0 ≠ civilToSecs 2025 7 4 19 0 0 := by
  constructor <;> decide

/-- C10: the field label of every kept game is derived exactly as the
claim describes: `field_name` with each `"Field "` occurrence removed
when present and non-empty, otherwise the string form of `Field`, empty
when both are missing. -/
theorem c10_field_derivation (now : Int) (rec : ApiGameRec) (out : OutGame)
    (hout : processGame now rec = some out) : out.field = claimFieldOf rec := by
  have hfc : fieldOfRec rec = claimFieldOf rec := by
    unfold fieldOfRec claimFieldOf
    cases rec.field_name with
    | none => rfl
    | some s =>
      by_cases hs : s = ""
      · simp [hs]
      · simp [hs]
  unfold processGame at hout
  cases hdt : rec.SchedGameDateTime with
  | none => rw [hdt] at hout; exact absurd hout (by simp)
  | some iso =>
    rw [hdt] at hout
    dsimp only at hout
    split at hout
    · exact absurd hout (by simp)
    · split at hout
      · have := (Option.some.injEq _ _ ▸ hout)
        rw [← this, ← hfc]
      · exact absurd hout (by simp)

/-- Witness for C10 at a concrete record: `field_name = "Field 3"` yields
field `"3"`. -/
theorem c10_witness :
    processGame 0 recC1 = some outC1 ∧ outC1.field = claimFieldOf recC1 ∧
    claimFieldOf recC1 = "3" :=
  ⟨(Option.some_get _).symm,
    c10_field_derivation 0 recC1 outC1 (Option.some_get _).symm, by decide⟩

/-- A kept game passed the future filter: its instant is at least the
rounded current instant. -/
theorem processGame_kept (now : Int) (rec : ApiGameRec) (out : OutGame)
    (hout : processGame now rec = some out) :
    roundMin now ≤ out.datetime_obj.instantSec := by
  unfold processGame at hout
  cases hdt : rec.SchedGameDateTime with
  | none => rw [hdt] at hout; exact absurd hout (by simp)
  | some iso =>
    rw [hdt] at hout
    dsimp only at hout
    split at hout
    · exact absurd hout (by simp)
    · split at hout
      · rename_i hcond
        have := (Option.some.injEq _ _ ▸ hout)
        rw [← this]
        exact hcond
      · exact absurd hout (by simp)

/-- The games loop is the order-preserving filter-map of the record
list. -/
theorem processGames_eq_filterMap (now : Int) (recs : List ApiGameRec) :
    processGames now recs = recs.filterMap (processGame now) := by
  unfold processGames
  have h : ∀ acc, recs.foldl
      (fun acc rec =>
        match processGame now rec with
        | some g => acc ++ [g]
        | none => acc) acc = acc ++ recs.filterMap (processGame now) := by
    induction recs with
    | nil => intro acc; simp
    | cons r t ih =>
      intro acc
      simp only [List.foldl, List.filterMap_cons]
      cases hr : processGame now r with
      | none => rw [ih]
      | some g => rw [ih]; simp
  simpa using h []

/-- C8 (amended): the returned games are, in original source order, the
records that survive resolution, and each of them starts no earlier than
the current instant rounded to the nearest minute (the code compares
against `pandas.to_datetime(now).round('min')`, not `now` itself). -/
theorem c8_filter_vs_rounded_now (now : Int) (recs : List ApiGameRec) :
    processGames now recs = recs.filterMap (processGame now) ∧
    ∀ g ∈ processGames now recs, roundMin now ≤ g.datetime_obj.instantSec := by
  refine ⟨processGames_eq_filterMap now recs, ?_⟩
  intro g hg
  rw [processGames_eq_filterMap now recs] at hg
  obtain ⟨rec, _, hrec⟩ := List.mem_filterMap.mp hg
  exact processGame_kept now rec g hrec

/-- Witness for the amended C8: the concrete kept game at instant 60005
satisfies the rounded bound for now = 60010. -/
theorem c8_witness : roundMin 60010 ≤ outC8.datetime_obj.instantSec :=
  (c8_filter_vs_rounded_now 60010 [recC8]).2 outC8 (by decide)

/-- C8: claim falsified — with now at second 10 of a minute, a game
dated 5 seconds before now (instant 60005 < now = 60010) is kept,
because the filter compares against now rounded down to the minute. -/
theorem c8_counterexample :
    (get_team_schedule_from_api 60010 netC8 "123456").map
        (fun r => r.1.map (fun g => g.datetime_obj.instantSec))
      = .ok [60005] ∧ (60005 : Int) < 60010 := by
  constructor <;> decide

/-- The per-team fetch loop splits into independent per-team
contributions: successful teams contribute their tagged games in fetch
order, failed teams one failure entry each, and neither side disturbs
the other. -/
theorem fetchBatch_spec (now : Int) (net : String → Except NetFail ApiDoc)
    (ids : List String) :
    fetchBatch now net ids
      = (ids.flatMap (fun tid =>
            match get_team_schedule_from_api now net tid with
            | .ok r => r.1.map (tagGame tid r.2.1 r.2.2)
            | .error _ => []),
         ids.flatMap (fun tid =>
            match get_team_schedule_from_api now net tid with
            | .ok _ => []
            | .error e => [⟨tid, e.msg, e.className⟩])) := by
  unfold fetchBatch
  have h : ∀ (acc : List HandlerGame × List FailedTeam), ids.foldl
      (fun acc tid =>
        match get_team_schedule_from_api now net tid with
        | .ok (games, season, team_name) =>
          (acc.1 ++ games.map (tagGame tid season team_name), acc.2)
        | .error e => (acc.1, acc.2 ++ [⟨tid, e.msg, e.className⟩]))
      acc
      = (acc.1 ++ ids.flatMap (fun tid =>
            match get_team_schedule_from_api now net tid with
            | .ok r => r.1.map (tagGame tid r.2.1 r.2.2)
            | .error _ => []),
         acc.2 ++ ids.flatMap (fun tid =>
            match get_team_schedule_from_api now net tid with
            | .ok _ => []
            | .error e => [⟨tid, e.msg, e.className⟩])) := by
    induction ids with
    | nil => intro acc; simp
    | cons tid t ih =>
      intro acc
      simp only [List.foldl, List.flatMap_cons]
      cases hr : get_team_schedule_from_api now net tid with
      | ok r => rw [ih]; simp
      | error e => rw [ih]; simp
  simpa using h ([], [])

/-- C9 (amended): the merged games of one fetch batch are the
concatenation, per valid team id in processing order, of that team's
games in their fetched order — no chronological sort is applied. -/
theorem c9_merge_is_concatenation (now : Int)
    (net : String → Except NetFail ApiDoc) (ids : List String) :
    (fetchBatch now net ids).1
      = ids.flatMap (fun tid =>
          match get_team_schedule_from_api now net tid with
          | .ok r => r.1.map (tagGame tid r.2.1 r.2.2)
          | .error _ => []) := by
  rw [fetchBatch_spec]

/-- C9: claim falsified — merging teams `111111` (game at instant
200000) and `222222` (game at instant 100000) yields the games in team
order `[200000, 100000]`, which is not sorted ascending by start
instant. -/
theorem c9_counterexample :
    ((fetchBatch 0 netC9 ["111111", "222222"]).1.map
        (fun g => g.game.datetime_obj.instantSec)) = [200000, 100000] ∧
    ¬ List.Sorted (fun a b => a ≤ b)
        ((fetchBatch 0 netC9 ["111111", "222222"]).1.map
          (fun g => g.game.datetime_obj.instantSec)) := by
  constructor
  · decide
  · intro h
    have h1 : (100000 : Int) < 200000 := by decide
    have h2 : ((fetchBatch 0 netC9 ["111111", "222222"]).1.map
        (fun g => g.game.datetime_obj.instantSec)) = [200000, 100000] := by decide
    rw [h2] at h
    exact absurd (List.rel_of_sorted_cons h 100000 (by simp)) (by decide)

/-- A digit character is not whitespace. -/
theorem digit_not_space (c : Char) (h : c.isDigit = true) : pySpaceChar c = false := by
  cases hc : pySpaceChar c
  · rfl
  · exfalso
    unfold pySpaceChar at hc
    simp only [Bool.or_eq_true, decide_eq_true_eq] at hc
    rcases hc with ((((rfl | rfl) | rfl) | rfl) | rfl) | rfl <;>
      exact absurd h (by decide)

/-- `dropWhile` leaves a list whose head is not whitespace unchanged. -/
theorem dropWhile_of_head_not_space (c : Char) (cs : List Char)
    (h : pySpaceChar c = false) :
    (c :: cs).dropWhile pySpaceChar = c :: cs := by
  simp [List.dropWhile_cons, h]

/-- Stripping an all-digit, non-empty string changes nothing. -/
theorem pyStripList_of_digits (cs : List Char) (hne : cs ≠ [])
    (hd : ∀ c ∈ cs, c.isDigit = true) : pyStripList cs = cs := by
  unfold pyStripList
  obtain ⟨c, t, rfl⟩ := List.exists_cons_of_ne_nil hne
  rw [dropWhile_of_head_not_space c t (digit_not_space c (hd c (by simp)))]
  cases hrev : (c :: t).reverse with
  | nil => exact absurd (List.reverse_eq_nil_iff.mp hrev) (by simp)
  | cons d rt =>
    have hdmem : d ∈ (c :: t) := by
      rw [← List.mem_reverse, hrev]; simp
    rw [dropWhile_of_head_not_space d rt
      (digit_not_space d (hd d hdmem)), ← hrev, List.reverse_reverse]

/-- Stripping six digits plus one trailing newline drops exactly the
newline. -/
theorem pyStripList_digits_newline (ds : List Char) (hne : ds ≠ [])
    (hd : ∀ c ∈ ds, c.isDigit = true) : pyStripList (ds ++ ['\n']) = ds := by
  unfold pyStripList
  obtain ⟨c, t, rfl⟩ := List.exists_cons_of_ne_nil hne
  rw [List.cons_append, dropWhile_of_head_not_space c (t ++ ['\n'])
    (digit_not_space c (hd c (by simp))), ← List.cons_append,
    List.reverse_append]
  rw [show (['\n'] : List Char).reverse = ['\n'] from rfl, List.singleton_append]
  rw [List.dropWhile_cons]
  simp only [show pySpaceChar '\n' = true from rfl, if_true]
  cases hrev : (c :: t).reverse with
  | nil => exact absurd (List.reverse_eq_nil_iff.mp hrev) (by simp)
  | cons d rt =>
    have hdmem : d ∈ (c :: t) := by
      rw [← List.mem_reverse, hrev]; simp
    rw [dropWhile_of_head_not_space d rt
      (digit_not_space d (hd d hdmem)), ← hrev, List.reverse_reverse]

/-- Decomposition of a string accepted by the `^\d{6}$` model: six
digits, or six digits and one trailing newline. -/
theorem pyMatch_shape (s : String) (hm : pyMatchSixDigits s = true) :
    (s.data.length = 6 ∧ ∀ c ∈ s.data, c.isDigit = true) ∨
    (∃ ds, s.data = ds ++ ['\n'] ∧ ds.length = 6 ∧
      (∀ c ∈ ds, c.isDigit = true) ∧ s.data.take 6 = ds) := by
  unfold pyMatchSixDigits at hm
  simp only [Bool.or_eq_true, Bool.and_eq_true, decide_eq_true_eq,
    List.all_eq_true] at hm
  rcases hm with ⟨h6, hall⟩ | ⟨⟨h7, hall⟩, hlast⟩
  · exact Or.inl ⟨h6, hall⟩
  · right
    have hsplit := List.take_append_drop 6 s.data
    have hdlen : (s.data.drop 6).length = 1 := by
      rw [List.length_drop, h7]
    obtain ⟨x, hx⟩ := List.length_eq_one.mp hdlen
    have hxlast : s.data.getLast? = some x := by
      conv_lhs => rw [← hsplit, hx]
      exact List.getLast?_concat _
    have hxeq : x = '\n' := Option.some.inj (hxlast.symm.trans hlast)
    refine ⟨s.data.take 6, ?_, ?_, hall, rfl⟩
    · conv_lhs => rw [← hsplit, hx, hxeq]
    · rw [List.length_take, h7]
      decide

/-- The two acceptance predicates agree: the claim-side shape implies the
regex model accepts. -/
theorem pyMatch_of_c7Spec (s : String) (hc : c7Spec s = true) :
    pyMatchSixDigits s = true := by
  unfold c7Spec at hc
  unfold pyMatchSixDigits
  simp only [Bool.or_eq_true, Bool.and_eq_true, decide_eq_true_eq,
    List.all_eq_true] at hc ⊢
  rcases hc with ⟨⟨hlen | ⟨hlen, hlast⟩, hdig⟩, _⟩
  · left
    refine ⟨hlen, ?_⟩
    have htake : s.data.take 6 = s.data := by
      rw [← hlen]; exact List.take_length s.data
    rw [htake] at hdig
    exact hdig
  · exact Or.inr ⟨⟨hlen, hdig⟩, hlast⟩

/-- C7 (amended): over ASCII inputs, `validate_team_id` succeeds exactly
on strings of six decimal digits, optionally followed by one trailing
newline (the regex anchor `$` also matches just before a final newline),
whose numeric value is positive; everything else fails with a
`ValueError`. -/
theorem c7_validate_characterization (s : String)
    (hascii : ∀ c ∈ s.data, c.toNat < 128) :
    (validate_team_id s).isOk = c7Spec s := by
  unfold validate_team_id
  cases hm : pyMatchSixDigits s with
  | false =>
    have hspec : c7Spec s = false := by
      cases hc : c7Spec s
      · rfl
      · rw [pyMatch_of_c7Spec s hc] at hm
        exact Bool.noConfusion hm
    rw [hspec]
    split
    · rfl
    · rw [if_pos (by simp)]
      rfl
  | true =>
    have hne6 : ∀ (l : List Char), l.length = 6 → l ≠ [] := by
      intro l hl h
      rw [h] at hl
      simp at hl
    rcases pyMatch_shape s hm with ⟨hlen, hdig⟩ | ⟨ds, hds, hdslen, hdsdig, htake⟩
    · have hstrip : pyStripList s.data = s.data :=
        pyStripList_of_digits s.data (hne6 _ hlen) hdig
      have hstrip' : (pyStrip s).data = s.data := hstrip
      have hint : pyInt s = some ((digitsVal s.data : Nat) : Int) := by
        unfold pyInt
        simp only [pyStrip, hstrip]
        rw [if_pos ⟨hne6 _ hlen, List.all_eq_true.mpr hdig⟩]
      rw [hint]
      dsimp only
      have htake6 : s.data.take 6 = s.data := by
        rw [← hlen]; exact List.take_length s.data
      have hspec : c7Spec s = decide (0 < digitsVal s.data) := by
        unfold c7Spec
        rw [htake6]
        simp [hlen, List.all_eq_true.mpr hdig]
      rw [hspec, if_neg (by rw [hstrip']; exact hne6 _ hlen)]
      simp only [hm, Bool.not_true, if_false]
      by_cases hz : digitsVal s.data = 0
      · rw [if_pos (show ((digitsVal s.data : Nat) : Int) ≤ 0 by simp [hz])]
        rw [hz]
        rfl
      · rw [if_neg (show ¬ ((digitsVal s.data : Nat) : Int) ≤ 0 by omega)]
        exact (decide_eq_true (Nat.pos_of_ne_zero hz)).symm
    · have hstrip : pyStripList s.data = ds := by
        rw [hds]
        exact pyStripList_digits_newline ds (hne6 _ hdslen) hdsdig
      have hstrip' : (pyStrip s).data = ds := hstrip
      have hint : pyInt s = some ((digitsVal ds : Nat) : Int) := by
        unfold pyInt
        simp only [pyStrip, hstrip]
        rw [if_pos ⟨hne6 _ hdslen, List.all_eq_true.mpr hdsdig⟩]
      rw [hint]
      dsimp only
      have hspec : c7Spec s = decide (0 < digitsVal ds) := by
        unfold c7Spec
        rw [htake]
        have h7 : s.data.length = 7 := by
          rw [hds]
          simp [hdslen]
        have hlast : s.data.getLast? = some '\n' := by
          rw [hds]
          exact List.getLast?_concat _
        simp [h7, hlast, List.all_eq_true.mpr hdsdig]
      rw [hspec, if_neg (by rw [hstrip']; exact hne6 _ hdslen)]
      simp only [hm, Bool.not_true, if_false]
      by_cases hz : digitsVal ds = 0
      · rw [if_pos (show ((digitsVal ds : Nat) : Int) ≤ 0 by simp [hz])]
        rw [hz]
        rfl
      · rw [if_neg (show ¬ ((digitsVal ds : Nat) : Int) ≤ 0 by omega)]
        exact (decide_eq_true (Nat.pos_of_ne_zero hz)).symm

/-- Witness for the amended C7 at `"123456"`: the characterization gives
acceptance. -/
theorem c7_witness :
    (∀ c ∈ ("123456" : String).data, c.toNat < 128) ∧
    (validate_team_id "123456").isOk = c7Spec "123456" ∧ c7Spec "123456" = true :=
  ⟨by decide, c7_validate_characterization "123456" (by decide), by decide⟩

/-- C7: claim falsified — `"123456\n"` is seven characters and contains a
non-digit, yet `validate_team_id` accepts it (the regex anchor `$`
matches before the final newline and `int()` strips it). -/
theorem c7_counterexample :
    validate_team_id "123456\n" = .ok true ∧
    ("123456\n" : String).data.length ≠ 6 ∧ ('\n'.isDigit = false) := by
  refine ⟨by decide, by decide, by decide⟩

/-- Month lengths of a common year never exceed those of any year. -/
theorem dim_mono : ∀ (l : Bool), ∀ m, m < 13 →
    daysInMonthB false m ≤ daysInMonthB l m := by decide

/-- Cumulative month offsets advance by exactly the month length. -/
theorem dbm_step : ∀ (l : Bool), ∀ m, m < 13 → 1 ≤ m →
    daysBeforeMonth l m + daysInMonthB l m = daysBeforeMonth l (m + 1) := by decide

/-- Cumulative month offsets are monotone in the month (from month 1
on). -/
theorem dbm_mono : ∀ (l : Bool), ∀ m, m < 14 → ∀ m2, m2 < 14 → 1 ≤ m →
    m ≤ m2 → daysBeforeMonth l m ≤ daysBeforeMonth l m2 := by decide

/-- Component bounds of a token record valid under the 1900 default. -/
theorem valid1900_bounds (d : DateText) (h : valid1900 d = true) :
    1 ≤ d.month ∧ d.month ≤ 12 ∧ 1 ≤ d.day ∧
    d.day ≤ daysInMonthB false d.month ∧ 1 ≤ d.hour12 ∧ d.hour12 ≤ 12 ∧
    d.minute ≤ 59 := by
  unfold valid1900 at h
  simp only [Bool.and_eq_true, decide_eq_true_eq] at h
  tauto

/-- The minute of day of valid tokens is below one day. -/
theorem minuteOfDay_lt (d : DateText) (h : valid1900 d = true) :
    d.minuteOfDay < 1440 := by
  obtain ⟨_, _, _, _, _, hh2, hm⟩ := valid1900_bounds d h
  unfold DateText.minuteOfDay
  have : d.hour12 % 12 < 12 := Nat.mod_lt _ (by omega)
  by_cases hp : d.isPM <;> simp [hp] <;> omega

/-- Within any single year, the day-of-year/minute position of valid
tokens is strictly monotone in the lexicographic (month, day, minute)
order. -/
theorem stamp_lt_of_lex (l : Bool) (a b : DateText)
    (ha : valid1900 a = true) (hb : valid1900 b = true)
    (hlex : a.month < b.month ∨ (a.month = b.month ∧ (a.day < b.day ∨
      (a.day = b.day ∧ a.minuteOfDay < b.minuteOfDay)))) :
    ((daysBeforeMonth l a.month + a.day : Nat) : Int) * 1440 + a.minuteOfDay
      < ((daysBeforeMonth l b.month + b.day : Nat) : Int) * 1440 + b.minuteOfDay := by
  obtain ⟨ha1, ha2, ha3, ha4, _, _, _⟩ := valid1900_bounds a ha
  obtain ⟨hb1, hb2, hb3, hb4, _, _, _⟩ := valid1900_bounds b hb
  have hamin := minuteOfDay_lt a ha
  rcases hlex with hm | ⟨hm, hd | ⟨hd, ht⟩⟩
  · have h2 : daysInMonthB false a.month ≤ daysInMonthB l a.month :=
      dim_mono l a.month (by omega)
    have h3 : daysBeforeMonth l a.month + daysInMonthB l a.month
        = daysBeforeMonth l (a.month + 1) := dbm_step l a.month (by omega) ha1
    have h4 : daysBeforeMonth l (a.month + 1) ≤ daysBeforeMonth l b.month :=
      dbm_mono l (a.month + 1) (by omega) b.month (by omega) (by omega) (by omega)
    omega
  · rw [hm]
    omega
  · rw [hm, hd]
    omega

/-- Reading the stamped tokens on the minute timeline. -/
theorem toMin_stampClaim (y : Nat) (d : DateText) :
    toMin (stampClaim y d)
      = ((daysBeforeYear y : Nat) : Int) * 1440
        + ((daysBeforeMonth (isLeap y) d.month + d.day : Nat) : Int) * 1440
        + d.minuteOfDay := by
  unfold toMin stampClaim toOrdinal
  push_cast
  ring

/-- Order transfer: the relative order of two valid token records under
the 1900 default year is preserved when both are stamped with any other
common year. -/
theorem stamp_le_transfer (y : Nat) (a b : DateText)
    (ha : valid1900 a = true) (hb : valid1900 b = true)
    (h : toMin (stampClaim 1900 a) ≤ toMin (stampClaim 1900 b)) :
    toMin (stampClaim y a) ≤ toMin (stampClaim y b) := by
  have htr : a.month < b.month ∨ (a.month = b.month ∧ (a.day < b.day ∨
      (a.day = b.day ∧ a.minuteOfDay < b.minuteOfDay)))
      ∨ (a.month = b.month ∧ a.day = b.day ∧ a.minuteOfDay = b.minuteOfDay)
      ∨ (b.month < a.month ∨ (b.month = a.month ∧ (b.day < a.day ∨
        (b.day = a.day ∧ b.minuteOfDay < a.minuteOfDay)))) := by
    omega
  rcases htr with hab | hab | heq | hba
  · have := stamp_lt_of_lex (isLeap y) a b ha hb (Or.inl hab)
    rw [toMin_stampClaim, toMin_stampClaim]
    omega
  · have := stamp_lt_of_lex (isLeap y) a b ha hb (Or.inr hab)
    rw [toMin_stampClaim, toMin_stampClaim]
    omega
  · rw [toMin_stampClaim, toMin_stampClaim, heq.1, heq.2.1, heq.2.2]
  · exfalso
    have := stamp_lt_of_lex (isLeap 1900) b a hb ha hba
    rw [toMin_stampClaim 1900 a, toMin_stampClaim 1900 b] at h
    omega

/-- `strptime` with the default year succeeds on valid tokens with the
1900-stamped value. -/
theorem strptime1900_of_valid (d : DateText) (h : valid1900 d = true) :
    strptime1900 d = some (stampClaim 1900 d) := by
  unfold strptime1900
  rw [if_pos h]
  rfl

/-- `strptime` with an explicit year succeeds on 1900-valid tokens (the
default year is the most restrictive one) with the stamped value. -/
theorem strptimeWithYear_of_valid (d : DateText) (y : Nat)
    (h : valid1900 d = true) : strptimeWithYear d y = some (stampClaim y d) := by
  obtain ⟨h1, h2, h3, h4, h5, h6, h7⟩ := valid1900_bounds d h
  have hdim : daysInMonthB false d.month ≤ daysInMonthB (isLeap y) d.month :=
    dim_mono (isLeap y) d.month (by omega)
  unfold strptimeWithYear
  rw [if_pos (by
    simp only [Bool.and_eq_true, decide_eq_true_eq]
    refine ⟨⟨⟨⟨⟨⟨h1, h2⟩, h3⟩, by omega⟩, h5⟩, h6⟩, h7⟩)]
  rfl

/-- On the string-date path (no `datetime_obj` anywhere, all dates
valid), the sorting step succeeds with the key-sorted list. -/
theorem sortedGames_fallback (games : List CalGame)
    (h1 : ∀ g ∈ games, g.datetimeObj = none)
    (h2 : ∀ g ∈ games, valid1900 g.date = true) :
    sortedGames games = .ok (sortKey strKey games) := by
  cases games with
  | nil => rfl
  | cons g0 t =>
    unfold sortedGames
    dsimp only
    rw [if_neg (show ¬ (g0.datetimeObj.isSome = true) by
      simp [h1 g0 (by simp)])]
    rw [mapME_eq_map _ (fun g => stampClaim 1900 g.date) (g0 :: t)
      (fun g hg => by rw [strptime1900_of_valid g.date (h2 g hg)])]

/-- On the string-date path, the resolved year is exactly the claim's:
the current year, advanced by one when the earliest stamped game falls
more than 7 days before now. -/
theorem resolveYear_fallback (now : NaiveDT) (games : List CalGame)
    (hne : games ≠ [])
    (h1 : ∀ g ∈ games, g.datetimeObj = none)
    (h2 : ∀ g ∈ games, valid1900 g.date = true) :
    resolveYear (toMin now) now.year (sortKey strKey games)
      = .ok (claimYear now games) := by
  obtain ⟨x, t, hxt, hxmem, hxmin⟩ := sortKey_head_min strKey games hne
  have hearliest : claimEarliest now.year games
      = toMin (stampClaim now.year x.date) := by
    unfold claimEarliest
    refine minI_eq _ _ (List.mem_map_of_mem _ hxmem) ?_
    intro y hy
    obtain ⟨g, hg, rfl⟩ := List.mem_map.mp hy
    exact stamp_le_transfer now.year x.date g.date (h2 x hxmem) (h2 g hg)
      (hxmin g hg)
  rw [hxt]
  unfold resolveYear
  dsimp only
  rw [h1 x hxmem]
  dsimp only
  rw [strptime1900_of_valid x.date (h2 x hxmem)]
  dsimp only [ltFirstGame, replaceYear]
  rw [show (⟨now.year, (stampClaim 1900 x.date).month,
      (stampClaim 1900 x.date).day, (stampClaim 1900 x.date).minute⟩ : NaiveDT)
    = stampClaim now.year x.date from rfl]
  unfold claimYear
  rw [hearliest]
  by_cases hroll : toMin (stampClaim now.year x.date) < toMin now - 7 * 1440
  · rw [decide_eq_true hroll]
    simp only [if_true]
    rw [if_pos hroll]
  · rw [decide_eq_false hroll]
    simp only [Bool.false_eq_true, if_false]
    rw [if_neg hroll]

/-- On the string-date path, the event loop succeeds and builds the
stamped events. -/
theorem mapME_events_fallback (y : Nat) (games : List CalGame)
    (h1 : ∀ g ∈ games, g.datetimeObj = none)
    (h2 : ∀ g ∈ games, valid1900 g.date = true) :
    mapME (eventOfGame y) games = .ok (games.map (mkFallbackEvent y)) := by
  refine mapME_eq_map _ _ games (fun g hg => ?_)
  unfold eventOfGame
  rw [h1 g hg]
  dsimp only
  rw [strptimeWithYear_of_valid g.date y (h2 g hg)]
  rfl

/-- Master lemma of the string-date path: `buildEvents` succeeds with one
event per game, each stamped with the claim's resolved year. -/
theorem buildEvents_fallback (now : NaiveDT) (games : List CalGame)
    (hne : games ≠ [])
    (h1 : ∀ g ∈ games, g.datetimeObj = none)
    (h2 : ∀ g ∈ games, valid1900 g.date = true) :
    buildEvents now games
      = .ok (games.map (mkFallbackEvent (claimYear now games))) := by
  unfold buildEvents
  rw [sortedGames_fallback games h1 h2]
  dsimp only
  rw [resolveYear_fallback now games hne h1 h2]
  dsimp only
  exact mapME_events_fallback _ games h1 h2

/-- C5: for a non-empty list of games carrying only day/month/time text
(no `datetime_obj`), every game is stamped with the current calendar
year, except that when the earliest stamped game falls more than 7 days
before now, every game is stamped with the next calendar year instead. -/
theorem c5_year_resolution (now : NaiveDT) (games : List CalGame)
    (hne : games ≠ [])
    (h1 : ∀ g ∈ games, g.datetimeObj = none)
    (h2 : ∀ g ∈ games, valid1900 g.date = true) :
    ∃ evs, buildEvents now games = .ok evs ∧
      evs.map (fun e => e.begin)
        = games.map (fun g =>
            (⟨stampClaim (claimYear now games) g.date, -420⟩ : CalAware)) := by
  refine ⟨games.map (mkFallbackEvent (claimYear now games)),
    buildEvents_fallback now games hne h1 h2, ?_⟩
  rw [List.map_map]
  rfl

/-- Witness for C5 at the spec's example: rows `Mon 6/2 6:30 PM` and
`Wed 6/4 7:15 PM` with now = 2025-06-01 resolve to year 2025 for both. -/
theorem c5_witness :
    claimYear nowCal [gFallA, gFallC] = 2025 ∧
    (∃ evs, buildEvents nowCal [gFallA, gFallC] = .ok evs ∧
      evs.map (fun e => e.begin)
        = [gFallA, gFallC].map (fun g =>
            (⟨stampClaim (claimYear nowCal [gFallA, gFallC]) g.date, -420⟩ :
              CalAware))) :=
  ⟨by decide,
    c5_year_resolution nowCal [gFallA, gFallC] (by decide) (by decide) (by decide)⟩

/-- C2: claim falsified — a schedule spanning 105 days (far beyond 63)
is processed successfully by the emitter; no `InvalidScheduleError` is
raised (no such error exists in the code at all). -/
theorem c2_counterexample :
    claimSpanMin nowCal.year [gFallA, gFallB] = 105 * 1440 + 45 ∧
    (63 : Int) * 1440 < 105 * 1440 + 45 ∧
    (create_calendar_events nowCal [gFallA, gFallB]).isOk = true := by
  refine ⟨by decide, by decide, by decide⟩

/-- C2 (amended): year resolution applies no span sanity check — for
games on the string-date path, `create_calendar_events` succeeds even
when the first-to-last parsed span exceeds 63 days; only the 7-day
next-year roll exists. -/
theorem c2_no_span_check (now : NaiveDT) (games : List CalGame)
    (h1 : ∀ g ∈ games, g.datetimeObj = none)
    (h2 : ∀ g ∈ games, valid1900 g.date = true)
    (hspan : 63 * 1440 < claimSpanMin now.year games) :
    (create_calendar_events now games).isOk = true := by
  have hne : games ≠ [] := by
    rintro rfl
    simp [claimSpanMin, claimEarliest, maxI, minI] at hspan
  unfold create_calendar_events
  rw [buildEvents_fallback now games hne h1 h2]
  rfl

/-- Witness for the amended C2 at the 105-day schedule. -/
theorem c2_witness :
    (63 : Int) * 1440 < claimSpanMin nowCal.year [gFallA, gFallB] ∧
    (create_calendar_events nowCal [gFallA, gFallB]).isOk = true :=
  ⟨by decide,
    c2_no_span_check nowCal [gFallA, gFallB] (by decide) (by decide) (by decide)⟩

end SoccerScraper
